import Mathlib

/-!
Shallow embedding of the `chip-8-core` Rust crate (sources in `src/`):
`timer.rs`, `callstack.rs`, `keycodes.rs`, `quirk_flags.rs`, `opcode.rs`,
`interpreter.rs`.

Conventions of the embedding:
* Machine integers (`u8`, `u16`, `u64`) are modelled as `Nat` with explicit
  `% 256` / `% 65536` where the Rust code performs wrapping arithmetic
  (release-mode semantics of `+`, `wrapping_add`, `overflowing_add`, ...).
* `Timer.count_ticks` is an `f64` in the source, but it is only ever `0.0` or
  incremented by exactly `1.0`, so it always holds a nonnegative integer; we
  model it as a `Nat`.  The comparison `count_ticks >= tick_rate as f64 / 60.0`
  is modelled exactly as `tick_rate <= count_ticks * 60` (equivalent over the
  reals for an integer `count_ticks`; the `f64` rounding of `tick_rate / 60.0`
  agrees with the real value on whether it exceeds a small integer for all
  tick rates below `2^29`, which covers every realizable driver rate).
* Fallible operations return `Except InterpreterErr _` when the Rust method
  borrows `self` immutably, and `Chip8 × Option InterpreterErr` when the Rust
  method mutates `self` (so that partial mutations performed before an `Err`
  are preserved, exactly as in Rust where `?` returns with `self` already
  mutated).
* The injected `PlatformAdapter` is modelled by the `randVal` field (the value
  `get_random_val` returns) and by the `isSoundPlaying` flag; `play_sound` /
  `pause_sound` have no modelled effect beyond that flag, matching the mock
  adapter used by the crate's tests.
-/

/-! ### timer.rs -/

structure Timer where
  startVal : Nat
  currentVal : Nat
  countTicks : Nat
  deriving Repr, DecidableEq

def Timer.new : Timer :=
  { startVal := 0, currentVal := 0, countTicks := 0 }

def Timer.set (t : Timer) (val : Nat) : Timer :=
  { t with startVal := val, currentVal := val, countTicks := 0 }

/-- `Timer::tick`.  `ticks_per_decrement = tick_rate / 60.0`; the counter is
incremented by one, and if the current value is positive and the counter has
reached `tick_rate / 60`, the value is decremented and the counter is reset
to zero (the fractional excess is discarded).  Returns the (possibly
decremented) current value together with the updated timer. -/
def Timer.tick (t : Timer) (tickRate : Nat) : Nat × Timer :=
  let c := t.countTicks + 1
  if 0 < t.currentVal ∧ tickRate ≤ c * 60 then
    (t.currentVal - 1, { t with currentVal := t.currentVal - 1, countTicks := 0 })
  else
    (t.currentVal, { t with countTicks := c })

/-- `n` successive calls of `Timer::tick` at a fixed rate. -/
def Timer.tickN (t : Timer) (tickRate : Nat) : Nat → Timer
  | 0 => t
  | n + 1 => ((t.tickN tickRate n).tick tickRate).2

/-! ### callstack.rs -/

inductive CallStackErr where
  | StackOverflow
  | StackEmpty
  deriving Repr, DecidableEq

structure CallStack where
  arr : Nat → Nat
  size : Nat
  top : Int

def CallStack.new (size : Nat) : CallStack :=
  { arr := fun _ => 0, size := size, top := -1 }

def CallStack.isEmpty (s : CallStack) : Bool :=
  s.top = -1

def CallStack.isFull (s : CallStack) : Bool :=
  s.top + 1 = (s.size : Int)

def CallStack.push (s : CallStack) (addr : Nat) : Except CallStackErr CallStack :=
  if s.isFull then
    .error .StackOverflow
  else
    .ok { s with top := s.top + 1, arr := Function.update s.arr (s.top + 1).toNat addr }

def CallStack.pop (s : CallStack) : Except CallStackErr (Nat × CallStack) :=
  if s.isEmpty then
    .error .StackEmpty
  else
    .ok (s.arr s.top.toNat, { s with top := s.top - 1 })

/-! ### quirk_flags.rs — the bitflags are modelled as five independent Bools. -/

structure QuirkFlags where
  quirk8xy6 : Bool
  quirk8xye : Bool
  quirkFx1e : Bool
  quirkFx55 : Bool
  quirkFx65 : Bool
  deriving Repr, DecidableEq

def QuirkFlags.NONE : QuirkFlags :=
  { quirk8xy6 := false, quirk8xye := false, quirkFx1e := false,
    quirkFx55 := false, quirkFx65 := false }

/-! ### keycodes.rs — the 16 key codes `Key0 .. KeyF`; `keycode as u8` is
`KeyCodes.val`. -/

abbrev KeyCodes := Fin 16

/-! ### opcode.rs -/

inductive OpCode where
  | OpCode00e0 : OpCode
  | OpCode00ee : OpCode
  | OpCode1nnn : Nat → OpCode
  | OpCode2nnn : Nat → OpCode
  | OpCode3xnn : Nat → Nat → OpCode
  | OpCode4xnn : Nat → Nat → OpCode
  | OpCode5xy0 : Nat → Nat → OpCode
  | OpCode6xnn : Nat → Nat → OpCode
  | OpCode7xnn : Nat → Nat → OpCode
  | OpCode8xy0 : Nat → Nat → OpCode
  | OpCode8xy1 : Nat → Nat → OpCode
  | OpCode8xy2 : Nat → Nat → OpCode
  | OpCode8xy3 : Nat → Nat → OpCode
  | OpCode8xy4 : Nat → Nat → OpCode
  | OpCode8xy5 : Nat → Nat → OpCode
  | OpCode8xy6 : Nat → Nat → OpCode
  | OpCode8xy7 : Nat → Nat → OpCode
  | OpCode8xye : Nat → Nat → OpCode
  | OpCode9xy0 : Nat → Nat → OpCode
  | OpCodeAnnn : Nat → OpCode
  | OpCodeBnnn : Nat → OpCode
  | OpCodeCxnn : Nat → Nat → OpCode
  | OpCodeDxyn : Nat → Nat → Nat → OpCode
  | OpCodeEx9e : Nat → OpCode
  | OpCodeExa1 : Nat → OpCode
  | OpCodeFx07 : Nat → OpCode
  | OpCodeFx0a : Nat → OpCode
  | OpCodeFx15 : Nat → OpCode
  | OpCodeFx18 : Nat → OpCode
  | OpCodeFx1e : Nat → OpCode
  | OpCodeFx29 : Nat → OpCode
  | OpCodeFx33 : Nat → OpCode
  | OpCodeFx55 : Nat → OpCode
  | OpCodeFx65 : Nat → OpCode
  | OpCodeInvalid : OpCode
  deriving Repr, DecidableEq

structure DecodedInstruction where
  instr : Nat
  opcode : OpCode
  mnemonic : String
  deriving Repr, DecidableEq

/-- `DecodedInstruction::new`, the sentinel value returned by `step` while the
interpreter is blocked waiting for a key press. -/
def DecodedInstruction.new : DecodedInstruction :=
  { instr := 0, opcode := .OpCodeInvalid, mnemonic := "" }

/-- Uppercase hex digit characters, mirroring Rust's `{:X}` formatting. -/
def hexDigitChar (n : Nat) : Char :=
  ['0', '1', '2', '3', '4', '5', '6', '7',
   '8', '9', 'A', 'B', 'C', 'D', 'E', 'F'].getD n '0'

def hexDigitsAux : Nat → Nat → List Char
  | 0, _ => []
  | fuel + 1, n =>
    if n < 16 then [hexDigitChar n]
    else hexDigitsAux fuel (n / 16) ++ [hexDigitChar (n % 16)]

def hexDigits (n : Nat) : List Char :=
  hexDigitsAux 8 n

/-- Rust `format!("{:X}", n)`. -/
def hexStr (n : Nat) : String :=
  String.mk (hexDigits n)

/-- Rust `format!("{:#0wX}", n)`: `0x` prefix, zero-padded so the whole
rendering is at least `w` characters. -/
def hexPad (w n : Nat) : String :=
  let ds := hexDigits n
  "0x" ++ String.mk (List.replicate (w - (2 + ds.length)) '0') ++ String.mk ds

def get_n2 (instr : Nat) : Nat := (0x0F00 &&& instr) >>> 8

def get_n3 (instr : Nat) : Nat := (0x00F0 &&& instr) >>> 4

def get_n4 (instr : Nat) : Nat := 0x000F &&& instr

def get_nnn (instr : Nat) : Nat := 0x0FFF &&& instr

def get_nn (instr : Nat) : Nat := 0x00FF &&& instr

def invalid_instruction (instr : Nat) : DecodedInstruction :=
  { instr := instr, opcode := .OpCodeInvalid, mnemonic := "" }

/-- `opcode::decode`: the high nibble selects a primary bucket; buckets
0/5/8/9/E/F use a secondary discriminant.  Total on every instruction word. -/
def decode (instr : Nat) (quirkFlags : QuirkFlags) : DecodedInstruction :=
  match instr >>> 12 with
  | 0x0 =>
    match instr with
    | 0x00E0 => { instr := instr, opcode := .OpCode00e0, mnemonic := "CLS" }
    | 0x00EE => { instr := instr, opcode := .OpCode00ee, mnemonic := "RET" }
    | _ => invalid_instruction instr
  | 0x1 =>
    let addr := get_nnn instr
    { instr := instr, opcode := .OpCode1nnn addr, mnemonic := "JP " ++ hexPad 5 addr }
  | 0x2 =>
    let addr := get_nnn instr
    { instr := instr, opcode := .OpCode2nnn addr, mnemonic := "CALL " ++ hexPad 5 addr }
  | 0x3 =>
    let vxIdx := get_n2 instr
    let val := get_nn instr
    { instr := instr, opcode := .OpCode3xnn vxIdx val,
      mnemonic := "SE V" ++ hexStr vxIdx ++ ", " ++ hexPad 4 val }
  | 0x4 =>
    let vxIdx := get_n2 instr
    let val := get_nn instr
    { instr := instr, opcode := .OpCode4xnn vxIdx val,
      mnemonic := "SNE V" ++ hexStr vxIdx ++ ", " ++ hexPad 4 val }
  | 0x5 =>
    match get_n4 instr with
    | 0 =>
      let vxIdx := get_n2 instr
      let vyIdx := get_n3 instr
      { instr := instr, opcode := .OpCode5xy0 vxIdx vyIdx,
        mnemonic := "SE V" ++ hexStr vxIdx ++ ", V" ++ hexStr vyIdx }
    | _ => invalid_instruction instr
  | 0x6 =>
    let vxIdx := get_n2 instr
    let val := get_nn instr
    { instr := instr, opcode := .OpCode6xnn vxIdx val,
      mnemonic := "LD V" ++ hexStr vxIdx ++ ", " ++ hexPad 4 val }
  | 0x7 =>
    let vxIdx := get_n2 instr
    let val := get_nn instr
    { instr := instr, opcode := .OpCode7xnn vxIdx val,
      mnemonic := "ADD V" ++ hexStr vxIdx ++ ", " ++ hexPad 4 val }
  | 0x8 =>
    match get_n4 instr with
    | 0x0 =>
      let vxIdx := get_n2 instr
      let vyIdx := get_n3 instr
      { instr := instr, opcode := .OpCode8xy0 vxIdx vyIdx,
        mnemonic := "LD V" ++ hexStr vxIdx ++ ", V" ++ hexStr vyIdx }
    | 0x1 =>
      let vxIdx := get_n2 instr
      let vyIdx := get_n3 instr
      { instr := instr, opcode := .OpCode8xy1 vxIdx vyIdx,
        mnemonic := "OR V" ++ hexStr vxIdx ++ ", V" ++ hexStr vyIdx }
    | 0x2 =>
      let vxIdx := get_n2 instr
      let vyIdx := get_n3 instr
      { instr := instr, opcode := .OpCode8xy2 vxIdx vyIdx,
        mnemonic := "AND V" ++ hexStr vxIdx ++ ", V" ++ hexStr vyIdx }
    | 0x3 =>
      let vxIdx := get_n2 instr
      let vyIdx := get_n3 instr
      { instr := instr, opcode := .OpCode8xy3 vxIdx vyIdx,
        mnemonic := "XOR V" ++ hexStr vxIdx ++ ", V" ++ hexStr vyIdx }
    | 0x4 =>
      let vxIdx := get_n2 instr
      let vyIdx := get_n3 instr
      { instr := instr, opcode := .OpCode8xy4 vxIdx vyIdx,
        mnemonic := "ADD V" ++ hexStr vxIdx ++ ", V" ++ hexStr vyIdx }
    | 0x5 =>
      let vxIdx := get_n2 instr
      let vyIdx := get_n3 instr
      { instr := instr, opcode := .OpCode8xy5 vxIdx vyIdx,
        mnemonic := "SUB V" ++ hexStr vxIdx ++ ", V" ++ hexStr vyIdx }
    | 0x6 =>
      let vxIdx := get_n2 instr
      let vyIdx := get_n3 instr
      let mnemonic :=
        if quirkFlags.quirk8xy6 then
          "SHR V" ++ hexStr vxIdx ++ ", V" ++ hexStr vyIdx
        else
          "SHR V" ++ hexStr vxIdx
      { instr := instr, opcode := .OpCode8xy6 vxIdx vyIdx, mnemonic := mnemonic }
    | 0x7 =>
      let vxIdx := get_n2 instr
      let vyIdx := get_n3 instr
      { instr := instr, opcode := .OpCode8xy7 vxIdx vyIdx,
        mnemonic := "SUBN V" ++ hexStr vxIdx ++ ", V" ++ hexStr vyIdx }
    | 0xE =>
      let vxIdx := get_n2 instr
      let vyIdx := get_n3 instr
      let mnemonic :=
        if quirkFlags.quirk8xye then
          "SHL V" ++ hexStr vxIdx ++ ", V" ++ hexStr vyIdx
        else
          "SHL V" ++ hexStr vxIdx
      { instr := instr, opcode := .OpCode8xye vxIdx vyIdx, mnemonic := mnemonic }
    | _ => invalid_instruction instr
  | 0x9 =>
    match get_n4 instr with
    | 0x0 =>
      let vxIdx := get_n2 instr
      let vyIdx := get_n3 instr
      { instr := instr, opcode := .OpCode9xy0 vxIdx vyIdx,
        mnemonic := "SNE V" ++ hexStr vxIdx ++ ", V" ++ hexStr vyIdx }
    | _ => invalid_instruction instr
  | 0xA =>
    let addr := get_nnn instr
    { instr := instr, opcode := .OpCodeAnnn addr, mnemonic := "LD I " ++ hexPad 5 addr }
  | 0xB =>
    let addr := get_nnn instr
    { instr := instr, opcode := .OpCodeBnnn addr, mnemonic := "JP V0, " ++ hexPad 5 addr }
  | 0xC =>
    let vxIdx := get_n2 instr
    let mask := get_nn instr
    { instr := instr, opcode := .OpCodeCxnn vxIdx mask,
      mnemonic := "RND V" ++ hexStr vxIdx ++ ", " ++ hexPad 2 mask }
  | 0xD =>
    let vxIdx := get_n2 instr
    let vyIdx := get_n3 instr
    let count := get_n4 instr
    { instr := instr, opcode := .OpCodeDxyn vxIdx vyIdx count,
      mnemonic := "DRW V" ++ hexStr vxIdx ++ ", V" ++ hexStr vyIdx ++ ", " ++ hexPad 1 count }
  | 0xE =>
    match get_nn instr with
    | 0x9E =>
      let vxIdx := get_n2 instr
      { instr := instr, opcode := .OpCodeEx9e vxIdx, mnemonic := "SKP V" ++ hexStr vxIdx }
    | 0xA1 =>
      let vxIdx := get_n2 instr
      { instr := instr, opcode := .OpCodeExa1 vxIdx, mnemonic := "SKNP V" ++ hexStr vxIdx }
    | _ => invalid_instruction instr
  | _ =>
    match get_nn instr with
    | 0x07 =>
      let vxIdx := get_n2 instr
      { instr := instr, opcode := .OpCodeFx07 vxIdx, mnemonic := "LD V" ++ hexStr vxIdx ++ ", DT" }
    | 0x0A =>
      let vxIdx := get_n2 instr
      { instr := instr, opcode := .OpCodeFx0a vxIdx, mnemonic := "LD V" ++ hexStr vxIdx ++ ", K" }
    | 0x15 =>
      let vxIdx := get_n2 instr
      { instr := instr, opcode := .OpCodeFx15 vxIdx, mnemonic := "LD DT, V" ++ hexStr vxIdx }
    | 0x18 =>
      let vxIdx := get_n2 instr
      { instr := instr, opcode := .OpCodeFx18 vxIdx, mnemonic := "LD ST, V" ++ hexStr vxIdx }
    | 0x1E =>
      let vxIdx := get_n2 instr
      { instr := instr, opcode := .OpCodeFx1e vxIdx, mnemonic := "ADD I, V" ++ hexStr vxIdx }
    | 0x29 =>
      let vxIdx := get_n2 instr
      { instr := instr, opcode := .OpCodeFx29 vxIdx, mnemonic := "LD F, V" ++ hexStr vxIdx }
    | 0x33 =>
      let vxIdx := get_n2 instr
      { instr := instr, opcode := .OpCodeFx33 vxIdx, mnemonic := "LD B, V" ++ hexStr vxIdx }
    | 0x55 =>
      let vxIdx := get_n2 instr
      { instr := instr, opcode := .OpCodeFx55 vxIdx, mnemonic := "LD [I], V" ++ hexStr vxIdx }
    | 0x65 =>
      let vxIdx := get_n2 instr
      { instr := instr, opcode := .OpCodeFx65 vxIdx, mnemonic := "LD V" ++ hexStr vxIdx ++ ", [I]" }
    | _ => invalid_instruction instr

/-! ### interpreter.rs -/

inductive InterpreterErr where
  | CallStackEmpty
  | CallStackOverflow
  | InvalidOpcode : Nat → InterpreterErr
  | InvalidRegister
  | MemFault
  | DisplayFault
  | NonMonotonicClockValue
  | RomTooLarge
  deriving Repr, DecidableEq

def from_stack_err : CallStackErr → InterpreterErr
  | .StackOverflow => .CallStackOverflow
  | .StackEmpty => .CallStackEmpty

structure KeyAwaitOp where
  destVReg : Nat
  deriving Repr, DecidableEq

/-- The interpreter state (`Chip8Interpreter`).  `memory` holds the 4096 bytes
(indices `≥ 4096` are never read or written thanks to the bounds checks);
`display` is the 32×64 buffer; `vRegs` holds the sixteen 8-bit registers
(indices `≥ 16` are rejected by the register bounds checks).  `randVal` models
the injected platform adapter's `get_random_val`. -/
structure Chip8 where
  quirks : QuirkFlags
  keyPress : Option KeyCodes
  displayBuffer : Fin 32 → Fin 64 → Nat
  memory : Nat → Nat
  pc : Nat
  vRegs : Nat → Nat
  iReg : Nat
  stack : CallStack
  keyAwaitDestReg : Option KeyAwaitOp
  delayTimer : Timer
  soundTimer : Timer
  isSoundPlaying : Bool
  randVal : Nat

/-- The 16-glyph, 5-bytes-per-glyph character table (`CHAR_TABLE`). -/
def CHAR_TABLE : List Nat :=
  [0xF0, 0x90, 0x90, 0x90, 0xF0,
   0x20, 0x60, 0x20, 0x20, 0x70,
   0xF0, 0x10, 0xF0, 0x80, 0xF0,
   0xF0, 0x10, 0xF0, 0x10, 0xF0,
   0x90, 0x90, 0xF0, 0x10, 0x10,
   0xF0, 0x80, 0xF0, 0x10, 0xF0,
   0xF0, 0x80, 0xF0, 0x90, 0xF0,
   0xF0, 0x10, 0x20, 0x40, 0x40,
   0xF0, 0x90, 0xF0, 0x90, 0xF0,
   0xF0, 0x90, 0xF0, 0x10, 0xF0,
   0xF0, 0x90, 0xF0, 0x90, 0x90,
   0xE0, 0x90, 0xE0, 0x90, 0xE0,
   0xF0, 0x80, 0x80, 0x80, 0xF0,
   0xE0, 0x90, 0x90, 0x90, 0xE0,
   0xF0, 0x80, 0xF0, 0x80, 0xF0,
   0xF0, 0x80, 0xF0, 0x80, 0x80]

/-- Sequentially copy `data` into the byte function `m` starting at `base`
(the `for` loops in `Chip8Interpreter::new`). -/
def copyInto (m : Nat → Nat) (base : Nat) : List Nat → (Nat → Nat)
  | [] => m
  | b :: rest => copyInto (Function.update m base b) (base + 1) rest

/-- `Chip8Interpreter::new`: reject the ROM if `0x200 + rom.len() >= 4096`,
otherwise build the initial state with the character table at address 0 and
the ROM at address `0x200`. -/
def Chip8.new (rom : List Nat) : Except InterpreterErr Chip8 :=
  if 4096 ≤ 0x200 + rom.length then
    .error .RomTooLarge
  else
    .ok
      { quirks := QuirkFlags.NONE
        keyPress := none
        memory := copyInto (copyInto (fun _ => 0) 0 CHAR_TABLE) 0x200 rom
        displayBuffer := fun _ _ => 0
        pc := 0x200
        vRegs := fun _ => 0
        iReg := 0
        stack := CallStack.new 16
        keyAwaitDestReg := none
        delayTimer := Timer.new
        soundTimer := Timer.new
        isSoundPlaying := false
        randVal := 0 }

def Chip8.readMem (s : Chip8) (addr : Nat) : Except InterpreterErr Nat :=
  if 4096 ≤ addr then .error .MemFault else .ok (s.memory addr)

def Chip8.writeMem (s : Chip8) (addr val : Nat) : Except InterpreterErr Chip8 :=
  if 4096 ≤ addr then .error .MemFault
  else .ok { s with memory := Function.update s.memory addr val }

def Chip8.read_v_reg (s : Chip8) (regIdx : Nat) : Except InterpreterErr Nat :=
  if 16 ≤ regIdx then .error .InvalidRegister else .ok (s.vRegs regIdx)

def Chip8.write_v_reg (s : Chip8) (regIdx val : Nat) : Except InterpreterErr Chip8 :=
  if 16 ≤ regIdx then .error .InvalidRegister
  else .ok { s with vRegs := Function.update s.vRegs regIdx val }

/-- `Chip8Interpreter::draw`: XOR one sprite bit into the display cell at
`(x mod 64, y mod 32)`; report `true` iff the cell was toggled off
(`val == original_val && val == 1`). -/
def Chip8.draw (s : Chip8) (x y val : Nat) : Chip8 × Bool :=
  let xIdx : Fin 64 := ⟨x % 64, by omega⟩
  let yIdx : Fin 32 := ⟨y % 32, by omega⟩
  let originalVal := s.displayBuffer yIdx xIdx
  let newVal := originalVal ^^^ val
  ({ s with displayBuffer :=
      Function.update s.displayBuffer yIdx (Function.update (s.displayBuffer yIdx) xIdx newVal) },
   val == originalVal && val == 1)

def Chip8.start_delay_timer (s : Chip8) (startVal : Nat) : Chip8 :=
  { s with delayTimer := s.delayTimer.set startVal }

/-- `start_sound_timer`: also signals the platform adapter to start playback
(modelled only by the `isSoundPlaying` flag). -/
def Chip8.start_sound_timer (s : Chip8) (startVal : Nat) : Chip8 :=
  { s with soundTimer := s.soundTimer.set startVal, isSoundPlaying := true }

/-- `check_sound_timer`: ticks the sound timer at the driver-supplied rate and
pauses platform audio when the ticked value reaches zero while playing. -/
def Chip8.check_sound_timer (s : Chip8) (tickRate : Nat) : Chip8 :=
  let r := s.soundTimer.tick tickRate
  let s' := { s with soundTimer := r.2 }
  if r.1 = 0 ∧ s'.isSoundPlaying then { s' with isSoundPlaying := false } else s'

def Chip8.execute_00ee (s : Chip8) : Chip8 × Option InterpreterErr :=
  match s.stack.pop with
  | .error e => (s, some (from_stack_err e))
  | .ok (addr, st) => ({ s with pc := addr, stack := st }, none)

def Chip8.execute_00e0 (s : Chip8) : Chip8 × Option InterpreterErr :=
  ({ s with displayBuffer := fun _ _ => 0 }, none)

def Chip8.execute_1nnn (s : Chip8) (addr : Nat) : Chip8 × Option InterpreterErr :=
  ({ s with pc := addr }, none)

def Chip8.execute_2nnn (s : Chip8) (addr : Nat) : Chip8 × Option InterpreterErr :=
  match s.stack.push s.pc with
  | .error e => (s, some (from_stack_err e))
  | .ok st => ({ s with stack := st, pc := addr }, none)

def Chip8.execute_3xnn (s : Chip8) (vxIdx val : Nat) : Chip8 × Option InterpreterErr :=
  match s.read_v_reg vxIdx with
  | .error e => (s, some e)
  | .ok vxVal =>
    if vxVal = val then ({ s with pc := (s.pc + 2) % 65536 }, none) else (s, none)

def Chip8.execute_4xnn (s : Chip8) (vxIdx val : Nat) : Chip8 × Option InterpreterErr :=
  match s.read_v_reg vxIdx with
  | .error e => (s, some e)
  | .ok vxVal =>
    if vxVal ≠ val then ({ s with pc := (s.pc + 2) % 65536 }, none) else (s, none)

def Chip8.execute_5xy0 (s : Chip8) (vxIdx vyIdx : Nat) : Chip8 × Option InterpreterErr :=
  match s.read_v_reg vxIdx with
  | .error e => (s, some e)
  | .ok vxVal =>
    match s.read_v_reg vyIdx with
    | .error e => (s, some e)
    | .ok vyVal =>
      if vxVal = vyVal then ({ s with pc := (s.pc + 2) % 65536 }, none) else (s, none)

def Chip8.execute_6xnn (s : Chip8) (vxIdx val : Nat) : Chip8 × Option InterpreterErr :=
  match s.write_v_reg vxIdx val with
  | .error e => (s, some e)
  | .ok s' => (s', none)

def Chip8.execute_7xnn (s : Chip8) (vxIdx val : Nat) : Chip8 × Option InterpreterErr :=
  match s.read_v_reg vxIdx with
  | .error e => (s, some e)
  | .ok vxVal =>
    match s.write_v_reg vxIdx ((vxVal + val) % 256) with
    | .error e => (s, some e)
    | .ok s' => (s', none)

def Chip8.execute_8xy0 (s : Chip8) (vxIdx vyIdx : Nat) : Chip8 × Option InterpreterErr :=
  match s.read_v_reg vyIdx with
  | .error e => (s, some e)
  | .ok vyVal =>
    match s.write_v_reg vxIdx vyVal with
    | .error e => (s, some e)
    | .ok s' => (s', none)

def Chip8.execute_8xy1 (s : Chip8) (vxIdx vyIdx : Nat) : Chip8 × Option InterpreterErr :=
  match s.read_v_reg vxIdx with
  | .error e => (s, some e)
  | .ok vxVal =>
    match s.read_v_reg vyIdx with
    | .error e => (s, some e)
    | .ok vyVal =>
      match s.write_v_reg vxIdx (vxVal ||| vyVal) with
      | .error e => (s, some e)
      | .ok s' => (s', none)

def Chip8.execute_8xy2 (s : Chip8) (vxIdx vyIdx : Nat) : Chip8 × Option InterpreterErr :=
  match s.read_v_reg vxIdx with
  | .error e => (s, some e)
  | .ok vxVal =>
    match s.read_v_reg vyIdx with
    | .error e => (s, some e)
    | .ok vyVal =>
      match s.write_v_reg vxIdx (vxVal &&& vyVal) with
      | .error e => (s, some e)
      | .ok s' => (s', none)

def Chip8.execute_8xy3 (s : Chip8) (vxIdx vyIdx : Nat) : Chip8 × Option InterpreterErr :=
  match s.read_v_reg vxIdx with
  | .error e => (s, some e)
  | .ok vxVal =>
    match s.read_v_reg vyIdx with
    | .error e => (s, some e)
    | .ok vyVal =>
      match s.write_v_reg vxIdx (vxVal ^^^ vyVal) with
      | .error e => (s, some e)
      | .ok s' => (s', none)

def Chip8.execute_8xy4 (s : Chip8) (vxIdx vyIdx : Nat) : Chip8 × Option InterpreterErr :=
  match s.read_v_reg vxIdx with
  | .error e => (s, some e)
  | .ok vxVal =>
    match s.read_v_reg vyIdx with
    | .error e => (s, some e)
    | .ok vyVal =>
      let result := (vxVal + vyVal) % 256
      let didOverflow := 256 ≤ vxVal + vyVal
      match s.write_v_reg vxIdx result with
      | .error e => (s, some e)
      | .ok s1 =>
        if ¬didOverflow then
          match s1.write_v_reg 0x0F 0x00 with
          | .error e => (s1, some e)
          | .ok s2 => (s2, none)
        else
          match s1.write_v_reg 0x0F 0x01 with
          | .error e => (s1, some e)
          | .ok s2 => (s2, none)

def Chip8.execute_8xy5 (s : Chip8) (vxIdx vyIdx : Nat) : Chip8 × Option InterpreterErr :=
  match s.read_v_reg vxIdx with
  | .error e => (s, some e)
  | .ok vxVal =>
    match s.read_v_reg vyIdx with
    | .error e => (s, some e)
    | .ok vyVal =>
      let result := (vxVal + 256 - vyVal) % 256
      let didOverflow := vxVal < vyVal
      match s.write_v_reg vxIdx result with
      | .error e => (s, some e)
      | .ok s1 =>
        if didOverflow then
          match s1.write_v_reg 0x0F 0x00 with
          | .error e => (s1, some e)
          | .ok s2 => (s2, none)
        else
          match s1.write_v_reg 0x0F 0x01 with
          | .error e => (s1, some e)
          | .ok s2 => (s2, none)

def Chip8.execute_8xy6 (s : Chip8) (vxIdx : Nat) : Chip8 × Option InterpreterErr :=
  match s.read_v_reg vxIdx with
  | .error e => (s, some e)
  | .ok val =>
    match s.write_v_reg 0x0F (0x01 &&& val) with
    | .error e => (s, some e)
    | .ok s1 =>
      match s1.write_v_reg vxIdx (val >>> 1) with
      | .error e => (s1, some e)
      | .ok s2 => (s2, none)

def Chip8.execute_8xy6_quirk_mode (s : Chip8) (vxIdx vyIdx : Nat) : Chip8 × Option InterpreterErr :=
  match s.read_v_reg vyIdx with
  | .error e => (s, some e)
  | .ok val =>
    match s.write_v_reg 0x0F (0x01 &&& val) with
    | .error e => (s, some e)
    | .ok s1 =>
      match s1.write_v_reg vxIdx (val >>> 1) with
      | .error e => (s1, some e)
      | .ok s2 => (s2, none)

def Chip8.execute_8xy7 (s : Chip8) (vxIdx vyIdx : Nat) : Chip8 × Option InterpreterErr :=
  match s.read_v_reg vxIdx with
  | .error e => (s, some e)
  | .ok vxVal =>
    match s.read_v_reg vyIdx with
    | .error e => (s, some e)
    | .ok vyVal =>
      let result := (vyVal + 256 - vxVal) % 256
      let didOverflow := vyVal < vxVal
      let flagged :=
        if didOverflow then s.write_v_reg 0x0F 0x00 else s.write_v_reg 0x0F 0x01
      match flagged with
      | .error e => (s, some e)
      | .ok s1 =>
        match s1.write_v_reg vxIdx result with
        | .error e => (s1, some e)
        | .ok s2 => (s2, none)

def Chip8.execute_8xye (s : Chip8) (vxIdx : Nat) : Chip8 × Option InterpreterErr :=
  match s.read_v_reg vxIdx with
  | .error e => (s, some e)
  | .ok val =>
    match s.write_v_reg 0x0F (val >>> 7) with
    | .error e => (s, some e)
    | .ok s1 =>
      match s1.write_v_reg vxIdx ((val <<< 1) % 256) with
      | .error e => (s1, some e)
      | .ok s2 => (s2, none)

def Chip8.execute_8xye_quirk_mode (s : Chip8) (vxIdx vyIdx : Nat) : Chip8 × Option InterpreterErr :=
  match s.read_v_reg vyIdx with
  | .error e => (s, some e)
  | .ok val =>
    match s.write_v_reg 0x0F (val >>> 7) with
    | .error e => (s, some e)
    | .ok s1 =>
      match s1.write_v_reg vxIdx ((val <<< 1) % 256) with
      | .error e => (s1, some e)
      | .ok s2 => (s2, none)

def Chip8.execute_9xy0 (s : Chip8) (vxIdx vyIdx : Nat) : Chip8 × Option InterpreterErr :=
  match s.read_v_reg vxIdx with
  | .error e => (s, some e)
  | .ok vxVal =>
    match s.read_v_reg vyIdx with
    | .error e => (s, some e)
    | .ok vyVal =>
      if vxVal ≠ vyVal then ({ s with pc := (s.pc + 2) % 65536 }, none) else (s, none)

def Chip8.execute_annn (s : Chip8) (addr : Nat) : Chip8 × Option InterpreterErr :=
  ({ s with iReg := addr }, none)

def Chip8.execute_bnnn (s : Chip8) (addr : Nat) : Chip8 × Option InterpreterErr :=
  match s.read_v_reg 0x00 with
  | .error e => (s, some e)
  | .ok v0Val => ({ s with iReg := (addr + v0Val) % 65536 }, none)

def Chip8.execute_cxnn (s : Chip8) (vxIdx mask : Nat) : Chip8 × Option InterpreterErr :=
  match s.write_v_reg vxIdx (s.randVal &&& mask) with
  | .error e => (s, some e)
  | .ok s' => (s', none)

/-- One row of `execute_dxyn`: the eight unrolled `draw` calls for sprite byte
`b` at base column `x0` and row `y` (`x_start + k` is a wrapping `u8` sum),
OR-accumulating the toggle flag. -/
def Chip8.drawRow (s : Chip8) (did : Bool) (x0 y b : Nat) : Chip8 × Bool :=
  let r0 := s.draw x0 y ((b >>> 7) &&& 1)
  let r1 := r0.1.draw ((x0 + 1) % 256) y ((b >>> 6) &&& 1)
  let r2 := r1.1.draw ((x0 + 2) % 256) y ((b >>> 5) &&& 1)
  let r3 := r2.1.draw ((x0 + 3) % 256) y ((b >>> 4) &&& 1)
  let r4 := r3.1.draw ((x0 + 4) % 256) y ((b >>> 3) &&& 1)
  let r5 := r4.1.draw ((x0 + 5) % 256) y ((b >>> 2) &&& 1)
  let r6 := r5.1.draw ((x0 + 6) % 256) y ((b >>> 1) &&& 1)
  let r7 := r6.1.draw ((x0 + 7) % 256) y (b &&& 1)
  (r7.1, did || r0.2 || r1.2 || r2.2 || r3.2 || r4.2 || r5.2 || r6.2 || r7.2)

/-- The `for line_num in 0..count` loop of `execute_dxyn`, processing lines
`l, l+1, ..., count-1`.  `addr` is the captured value of `i_reg`; a failing
sprite-byte read aborts the loop, keeping the rows already drawn. -/
def Chip8.dxynLines (s : Chip8) (did : Bool) (addr x0 y0 l count : Nat) :
    (Chip8 × Bool) × Option InterpreterErr :=
  if l < count then
    match s.readMem ((addr + l) % 65536) with
    | .error e => ((s, did), some e)
    | .ok b =>
      let r := s.drawRow did x0 ((y0 + l) % 256) b
      r.1.dxynLines r.2 addr x0 y0 (l + 1) count
  else
    ((s, did), none)
termination_by count - l

def Chip8.execute_dxyn (s : Chip8) (vxIdx vyIdx count : Nat) : Chip8 × Option InterpreterErr :=
  match s.read_v_reg vxIdx with
  | .error e => (s, some e)
  | .ok xStart =>
    match s.read_v_reg vyIdx with
    | .error e => (s, some e)
    | .ok yStart =>
      match s.dxynLines false s.iReg xStart yStart 0 count with
      | ((s', _), some e) => (s', some e)
      | ((s', didTogglePixelOff), none) =>
        if didTogglePixelOff then
          match s'.write_v_reg 0x0F 0x01 with
          | .error e => (s', some e)
          | .ok s'' => (s'', none)
        else
          match s'.write_v_reg 0x0F 0x00 with
          | .error e => (s', some e)
          | .ok s'' => (s'', none)

def Chip8.execute_ex9e (s : Chip8) (vxIdx : Nat) : Chip8 × Option InterpreterErr :=
  match s.read_v_reg vxIdx with
  | .error e => (s, some e)
  | .ok vxVal =>
    match s.keyPress with
    | some keycode =>
      if keycode.val = vxVal then ({ s with pc := (s.pc + 2) % 65536 }, none) else (s, none)
    | none => (s, none)

def Chip8.execute_exa1 (s : Chip8) (vxIdx : Nat) : Chip8 × Option InterpreterErr :=
  match s.read_v_reg vxIdx with
  | .error e => (s, some e)
  | .ok vxVal =>
    match s.keyPress with
    | some keycode =>
      if keycode.val ≠ vxVal then ({ s with pc := (s.pc + 2) % 65536 }, none) else (s, none)
    | none => (s, none)

/-- `execute_fx07`: ticks the delay timer at the hard-coded rate 100 and
stores the resulting current value into `VX`. -/
def Chip8.execute_fx07 (s : Chip8) (vxIdx : Nat) : Chip8 × Option InterpreterErr :=
  let r := s.delayTimer.tick 100
  let s1 := { s with delayTimer := r.2 }
  match s1.write_v_reg vxIdx r.1 with
  | .error e => (s1, some e)
  | .ok s2 => (s2, none)

def Chip8.execute_fx0a (s : Chip8) (vxIdx : Nat) : Chip8 × Option InterpreterErr :=
  ({ s with keyAwaitDestReg := some { destVReg := vxIdx } }, none)

def Chip8.execute_fx15 (s : Chip8) (vxIdx : Nat) : Chip8 × Option InterpreterErr :=
  match s.read_v_reg vxIdx with
  | .error e => (s, some e)
  | .ok val => (s.start_delay_timer val, none)

def Chip8.execute_fx18 (s : Chip8) (vxIdx : Nat) : Chip8 × Option InterpreterErr :=
  match s.read_v_reg vxIdx with
  | .error e => (s, some e)
  | .ok val => (s.start_sound_timer val, none)

def Chip8.execute_fx1e (s : Chip8) (vxIdx : Nat) : Chip8 × Option InterpreterErr :=
  match s.read_v_reg vxIdx with
  | .error e => (s, some e)
  | .ok val => ({ s with iReg := (s.iReg + val) % 65536 }, none)

def Chip8.execute_fx1e_quirk_mode (s : Chip8) (vxIdx : Nat) : Chip8 × Option InterpreterErr :=
  match s.read_v_reg vxIdx with
  | .error e => (s, some e)
  | .ok val =>
    let sum := (s.iReg + val) % 65536
    let didOverflow := 65536 ≤ s.iReg + val
    let s1 := { s with iReg := sum }
    if didOverflow then
      match s1.write_v_reg 0x0F 0x01 with
      | .error e => (s1, some e)
      | .ok s2 => (s2, none)
    else
      match s1.write_v_reg 0x0F 0x00 with
      | .error e => (s1, some e)
      | .ok s2 => (s2, none)

/-- `execute_fx29`: `self.i_reg = (val * 5) as u16` — the multiplication is
performed in `u8`, so it wraps modulo 256 before the widening cast. -/
def Chip8.execute_fx29 (s : Chip8) (vxIdx : Nat) : Chip8 × Option InterpreterErr :=
  match s.read_v_reg vxIdx with
  | .error e => (s, some e)
  | .ok val => ({ s with iReg := val * 5 % 256 }, none)

def Chip8.execute_fx33 (s : Chip8) (vxIdx : Nat) : Chip8 × Option InterpreterErr :=
  match s.read_v_reg vxIdx with
  | .error e => (s, some e)
  | .ok val =>
    match s.writeMem s.iReg (val / 100) with
    | .error e => (s, some e)
    | .ok s1 =>
      match s1.writeMem ((s1.iReg + 1) % 65536) (val / 10 % 10) with
      | .error e => (s1, some e)
      | .ok s2 =>
        match s2.writeMem ((s2.iReg + 2) % 65536) (val % 10) with
        | .error e => (s2, some e)
        | .ok s3 => (s3, none)

/-- The `for x in 0..=vx_idx` loop of `execute_fx55`, from `x` upward.  A
failing memory write aborts the loop with the earlier writes committed. -/
def Chip8.fx55Loop (s : Chip8) (x vxIdx : Nat) : Chip8 × Option InterpreterErr :=
  if x ≤ vxIdx then
    match s.read_v_reg x with
    | .error e => (s, some e)
    | .ok vRegVal =>
      match s.writeMem ((s.iReg + x) % 65536) vRegVal with
      | .error e => (s, some e)
      | .ok s' => s'.fx55Loop (x + 1) vxIdx
  else
    (s, none)
termination_by vxIdx + 1 - x

def Chip8.execute_fx55 (s : Chip8) (vxIdx : Nat) : Chip8 × Option InterpreterErr :=
  s.fx55Loop 0 vxIdx

def Chip8.execute_fx55_quirk_mode (s : Chip8) (vxIdx : Nat) : Chip8 × Option InterpreterErr :=
  match s.fx55Loop 0 vxIdx with
  | (s', some e) => (s', some e)
  | (s', none) => ({ s' with iReg := (s'.iReg + vxIdx + 1) % 65536 }, none)

/-- The `for x in 0..=vx_idx` loop of `execute_fx65`, from `x` upward.  A
failing memory read aborts the loop with the earlier register writes
committed. -/
def Chip8.fx65Loop (s : Chip8) (x vxIdx : Nat) : Chip8 × Option InterpreterErr :=
  if x ≤ vxIdx then
    match s.readMem ((s.iReg + x) % 65536) with
    | .error e => (s, some e)
    | .ok memVal =>
      match s.write_v_reg x memVal with
      | .error e => (s, some e)
      | .ok s' => s'.fx65Loop (x + 1) vxIdx
  else
    (s, none)
termination_by vxIdx + 1 - x

def Chip8.execute_fx65 (s : Chip8) (vxIdx : Nat) : Chip8 × Option InterpreterErr :=
  s.fx65Loop 0 vxIdx

def Chip8.execute_fx65_quirk_mode (s : Chip8) (vxIdx : Nat) : Chip8 × Option InterpreterErr :=
  match s.fx65Loop 0 vxIdx with
  | (s', some e) => (s', some e)
  | (s', none) => ({ s' with iReg := (s'.iReg + vxIdx + 1) % 65536 }, none)

/-- `execute_instruction`: the 35-way dispatch, consulting the live quirk
configuration for the five quirked instructions. -/
def Chip8.execute_instruction (s : Chip8) (decodedInstr : DecodedInstruction) :
    Chip8 × Option InterpreterErr :=
  match decodedInstr.opcode with
  | .OpCode00e0 => s.execute_00e0
  | .OpCode00ee => s.execute_00ee
  | .OpCode1nnn addr => s.execute_1nnn addr
  | .OpCode2nnn addr => s.execute_2nnn addr
  | .OpCode3xnn vxIdx val => s.execute_3xnn vxIdx val
  | .OpCode4xnn vxIdx val => s.execute_4xnn vxIdx val
  | .OpCode5xy0 vxIdx vyIdx => s.execute_5xy0 vxIdx vyIdx
  | .OpCode6xnn vxIdx val => s.execute_6xnn vxIdx val
  | .OpCode7xnn vxIdx val => s.execute_7xnn vxIdx val
  | .OpCode8xy0 vxIdx vyIdx => s.execute_8xy0 vxIdx vyIdx
  | .OpCode8xy1 vxIdx vyIdx => s.execute_8xy1 vxIdx vyIdx
  | .OpCode8xy2 vxIdx vyIdx => s.execute_8xy2 vxIdx vyIdx
  | .OpCode8xy3 vxIdx vyIdx => s.execute_8xy3 vxIdx vyIdx
  | .OpCode8xy4 vxIdx vyIdx => s.execute_8xy4 vxIdx vyIdx
  | .OpCode8xy5 vxIdx vyIdx => s.execute_8xy5 vxIdx vyIdx
  | .OpCode8xy6 vxIdx vyIdx =>
    if s.quirks.quirk8xy6 then s.execute_8xy6_quirk_mode vxIdx vyIdx
    else s.execute_8xy6 vxIdx
  | .OpCode8xy7 vxIdx vyIdx => s.execute_8xy7 vxIdx vyIdx
  | .OpCode8xye vxIdx vyIdx =>
    if s.quirks.quirk8xye then s.execute_8xye_quirk_mode vxIdx vyIdx
    else s.execute_8xye vxIdx
  | .OpCode9xy0 vxIdx vyIdx => s.execute_9xy0 vxIdx vyIdx
  | .OpCodeAnnn addr => s.execute_annn addr
  | .OpCodeBnnn addr => s.execute_bnnn addr
  | .OpCodeCxnn vxIdx mask => s.execute_cxnn vxIdx mask
  | .OpCodeDxyn vxIdx vyIdx count => s.execute_dxyn vxIdx vyIdx count
  | .OpCodeEx9e vxIdx => s.execute_ex9e vxIdx
  | .OpCodeExa1 vxIdx => s.execute_exa1 vxIdx
  | .OpCodeFx07 vxIdx => s.execute_fx07 vxIdx
  | .OpCodeFx0a vxIdx => s.execute_fx0a vxIdx
  | .OpCodeFx15 vxIdx => s.execute_fx15 vxIdx
  | .OpCodeFx18 vxIdx => s.execute_fx18 vxIdx
  | .OpCodeFx1e vxIdx =>
    if s.quirks.quirkFx1e then s.execute_fx1e_quirk_mode vxIdx
    else s.execute_fx1e vxIdx
  | .OpCodeFx29 vxIdx => s.execute_fx29 vxIdx
  | .OpCodeFx33 vxIdx => s.execute_fx33 vxIdx
  | .OpCodeFx55 vxIdx =>
    if s.quirks.quirkFx55 then s.execute_fx55_quirk_mode vxIdx
    else s.execute_fx55 vxIdx
  | .OpCodeFx65 vxIdx =>
    if s.quirks.quirkFx65 then s.execute_fx65_quirk_mode vxIdx
    else s.execute_fx65 vxIdx
  | .OpCodeInvalid => (s, some (.InvalidOpcode decodedInstr.instr))

/-- `is_awaiting_key_press`: resolves the key-wait latch.  When a latch is set
and a key value is present, the key is written into the recorded destination
register, the latch is cleared and `false` is returned — so the same `step`
call continues with a normal fetch/execute. -/
def Chip8.is_awaiting_key_press (s : Chip8) : Chip8 × Except InterpreterErr Bool :=
  match s.keyAwaitDestReg with
  | none => (s, .ok false)
  | some keyAwaitOp =>
    match s.keyPress with
    | none => (s, .ok true)
    | some keycode =>
      match s.write_v_reg keyAwaitOp.destVReg keycode.val with
      | .error e => (s, .error e)
      | .ok s' => ({ s' with keyAwaitDestReg := none }, .ok false)

/-- `fetch_next_instruction`: big-endian two-byte fetch at `pc`, then
`pc += 2` and decode. -/
def Chip8.fetch_next_instruction (s : Chip8) :
    Chip8 × Except InterpreterErr DecodedInstruction :=
  match s.readMem s.pc with
  | .error e => (s, .error e)
  | .ok hi =>
    match s.readMem ((s.pc + 1) % 65536) with
    | .error e => (s, .error e)
    | .ok lo =>
      let s' := { s with pc := (s.pc + 2) % 65536 }
      ((s'), .ok (decode ((hi <<< 8) ||| lo) s'.quirks))

/-- `Chip8Interpreter::step`: tick the sound timer, short-circuit to the
sentinel instruction while blocked on a key wait, otherwise fetch, decode and
execute one instruction. -/
def Chip8.step (s : Chip8) (tickRate : Nat) : Chip8 × Except InterpreterErr DecodedInstruction :=
  let s1 := s.check_sound_timer tickRate
  match s1.is_awaiting_key_press with
  | (s2, .error e) => (s2, .error e)
  | (s2, .ok true) => (s2, .ok DecodedInstruction.new)
  | (s2, .ok false) =>
    match s2.fetch_next_instruction with
    | (s3, .error e) => (s3, .error e)
    | (s3, .ok opcode) =>
      match s3.execute_instruction opcode with
      | (s4, none) => (s4, .ok opcode)
      | (s4, some e) => (s4, .error e)

/-! ### Write-list view of the sprite-draw instruction.

`execute_dxyn` performs a fixed sequence of single-pixel XOR writes whose
cells and bits depend only on the sprite bytes and the base coordinates —
not on the display contents.  The following definitions spell out that
sequence; the lemmas below prove that `execute_dxyn` is exactly the fold of
this sequence, which is what the drawing claims are proved from. -/

abbrev Display := Fin 32 → Fin 64 → Nat

abbrev Cell := Fin 32 × Fin 64

/-- The display cell targeted by a draw at (wrapped) coordinates `x`, `y`. -/
def cellOf (y x : Nat) : Cell :=
  (⟨y % 32, by omega⟩, ⟨x % 64, by omega⟩)

def dGet (d : Display) (c : Cell) : Nat := d c.1 c.2

def updCell (d : Display) (c : Cell) (v : Nat) : Display :=
  Function.update d c.1 (Function.update (d c.1) c.2 v)

/-- Fold a list of `(cell, bit)` XOR writes over a display, OR-accumulating
the `draw` toggle-off test `val == original && val == 1`. -/
def runWrites (d : Display) : List (Cell × Nat) → Display × Bool
  | [] => (d, false)
  | (c, b) :: ws =>
    let hit := (b == dGet d c) && (b == 1)
    let rest := runWrites (updCell d c (dGet d c ^^^ b)) ws
    (rest.1, hit || rest.2)

/-- XOR of all bits a write list sends to one cell. -/
def accBits : List (Cell × Nat) → Cell → Nat
  | [], _ => 0
  | (c1, b) :: ws, c => if c1 = c then b ^^^ accBits ws c else accBits ws c

/-- The eight `(cell, bit)` writes of one sprite row (byte `b`, base column
`x0`, wrapped row coordinate `y`), in the order `execute_dxyn` issues them. -/
def rowWrites (x0 y b : Nat) : List (Cell × Nat) :=
  [(cellOf y x0, (b >>> 7) &&& 1),
   (cellOf y ((x0 + 1) % 256), (b >>> 6) &&& 1),
   (cellOf y ((x0 + 2) % 256), (b >>> 5) &&& 1),
   (cellOf y ((x0 + 3) % 256), (b >>> 4) &&& 1),
   (cellOf y ((x0 + 4) % 256), (b >>> 3) &&& 1),
   (cellOf y ((x0 + 5) % 256), (b >>> 2) &&& 1),
   (cellOf y ((x0 + 6) % 256), (b >>> 1) &&& 1),
   (cellOf y ((x0 + 7) % 256), b &&& 1)]

/-- The writes of sprite lines `l, ..., count-1` read from `mem` at
`addr + line`. -/
def spriteWritesFrom (mem : Nat → Nat) (addr x0 y0 l count : Nat) : List (Cell × Nat) :=
  if l < count then
    rowWrites x0 ((y0 + l) % 256) (mem ((addr + l) % 65536))
      ++ spriteWritesFrom mem addr x0 y0 (l + 1) count
  else
    []
termination_by count - l

/-- The complete `(cell, bit)` write sequence of a `DXYN` draw with the given
memory, sprite address, base coordinates and row count. -/
def spriteWrites (mem : Nat → Nat) (addr x0 y0 count : Nat) : List (Cell × Nat) :=
  spriteWritesFrom mem addr x0 y0 0 count

/-! ### Concrete states used by the counterexamples and witnesses. -/

/-- A freshly constructed interpreter state (empty ROM): all memory, display
and registers zero, `pc = 0x200` — used as a base for concrete scenarios.
(The character table is irrelevant to the scenarios and left zeroed.) -/
def baseState : Chip8 :=
  { quirks := QuirkFlags.NONE
    keyPress := none
    displayBuffer := fun _ _ => 0
    memory := fun _ => 0
    pc := 0x200
    vRegs := fun _ => 0
    iReg := 0
    stack := CallStack.new 16
    keyAwaitDestReg := none
    delayTimer := Timer.new
    soundTimer := Timer.new
    isSoundPlaying := false
    randVal := 0 }

/-- A state in the middle of a key wait (destination register 1) with key 5
already pressed and the instruction `0x6233` (`LD V2, 0x33`) at `pc = 0x202`. -/
def c3State : Chip8 :=
  { baseState with
    keyAwaitDestReg := some { destVReg := 1 }
    keyPress := some (5 : Fin 16)
    pc := 0x202
    memory := fun a => if a = 0x202 then 0x62 else if a = 0x203 then 0x33 else 0 }

/-- A state with `VF = 5` and `V1 = 3`, used to exercise `8XY5` with
`X = 0xF`. -/
def c5State : Chip8 :=
  { baseState with vRegs := fun j => if j = 15 then 5 else if j = 1 then 3 else 0 }

/-- A state with `i_reg = 4095`, so a bulk dump/load of `V0..V1` faults on its
second element. -/
def c7State : Chip8 :=
  { baseState with
    iReg := 4095
    vRegs := fun j => if j = 0 then 0xAB else if j = 1 then 0xCD else 0
    memory := fun a => if a = 4095 then 0x77 else 0 }

/-- A state blocked on a key wait with no key pressed. -/
def c9State : Chip8 :=
  { baseState with keyAwaitDestReg := some { destVReg := 1 } }

/-! ### Helper lemmas: `check_sound_timer` touches only the sound state. -/

theorem cst_quirks (s : Chip8) (r : Nat) : (s.check_sound_timer r).quirks = s.quirks := by
  unfold Chip8.check_sound_timer; dsimp only; split <;> rfl

theorem cst_keyPress (s : Chip8) (r : Nat) : (s.check_sound_timer r).keyPress = s.keyPress := by
  unfold Chip8.check_sound_timer; dsimp only; split <;> rfl

theorem cst_display (s : Chip8) (r : Nat) :
    (s.check_sound_timer r).displayBuffer = s.displayBuffer := by
  unfold Chip8.check_sound_timer; dsimp only; split <;> rfl

theorem cst_memory (s : Chip8) (r : Nat) : (s.check_sound_timer r).memory = s.memory := by
  unfold Chip8.check_sound_timer; dsimp only; split <;> rfl

theorem cst_pc (s : Chip8) (r : Nat) : (s.check_sound_timer r).pc = s.pc := by
  unfold Chip8.check_sound_timer; dsimp only; split <;> rfl

theorem cst_vRegs (s : Chip8) (r : Nat) : (s.check_sound_timer r).vRegs = s.vRegs := by
  unfold Chip8.check_sound_timer; dsimp only; split <;> rfl

theorem cst_iReg (s : Chip8) (r : Nat) : (s.check_sound_timer r).iReg = s.iReg := by
  unfold Chip8.check_sound_timer; dsimp only; split <;> rfl

theorem cst_stack (s : Chip8) (r : Nat) : (s.check_sound_timer r).stack = s.stack := by
  unfold Chip8.check_sound_timer; dsimp only; split <;> rfl

theorem cst_keyAwait (s : Chip8) (r : Nat) :
    (s.check_sound_timer r).keyAwaitDestReg = s.keyAwaitDestReg := by
  unfold Chip8.check_sound_timer; dsimp only; split <;> rfl

theorem cst_delayTimer (s : Chip8) (r : Nat) :
    (s.check_sound_timer r).delayTimer = s.delayTimer := by
  unfold Chip8.check_sound_timer; dsimp only; split <;> rfl

theorem cst_randVal (s : Chip8) (r : Nat) : (s.check_sound_timer r).randVal = s.randVal := by
  unfold Chip8.check_sound_timer; dsimp only; split <;> rfl

/-- The instruction-word field survives decoding unchanged. -/
theorem decode_instr_eq (instr : Nat) (q : QuirkFlags) : (decode instr q).instr = instr := by
  unfold decode
  repeat' split <;> try rfl

/-! ### C1 — construction boundary -/

/-- C1, counterexample: the claim says a program image of length
`4096 - 0x200 = 3584` constructs successfully, but `Chip8Interpreter::new`
checks `0x200 + rom.len() >= 4096` with `>=`, so a 3584-byte image is
rejected with `RomTooLarge`. -/
theorem C1_counterexample :
    Chip8.new (List.replicate 3584 0) = Except.error InterpreterErr.RomTooLarge := by
  unfold Chip8.new
  rw [if_pos (by rw [List.length_replicate])]


/-- C1, amended: construction fails with `RomTooLarge` exactly when
`image length + 0x200` meets or exceeds 4096 — so every image of length at
most `3583` constructs successfully and every image of length `3584` or more
fails; the largest loadable image is `3583` bytes, one byte short of the
physical window `0x200..0xFFF`. -/
theorem C1_amended_rom_boundary (rom : List Nat) :
    (Chip8.new rom = Except.error InterpreterErr.RomTooLarge ↔ 4096 ≤ 0x200 + rom.length)
    ∧ ((∃ s, Chip8.new rom = Except.ok s) ↔ 0x200 + rom.length < 4096) := by
  unfold Chip8.new
  constructor
  · constructor
    · intro h
      by_contra hn
      rw [if_neg (by omega)] at h
      exact Except.noConfusion h
    · intro h
      rw [if_pos (by omega)]
  · constructor
    · rintro ⟨s, hs⟩
      by_contra hn
      rw [if_pos (by omega)] at hs
      exact Except.noConfusion hs
    · intro h
      rw [if_neg (by omega)]
      exact ⟨_, rfl⟩

/-- C1, witness: a 3583-byte image (the amended maximum) constructs
successfully and is not rejected. -/
theorem C1_witness :
    (∃ s, Chip8.new (List.replicate 3583 0) = Except.ok s)
    ∧ Chip8.new (List.replicate 3583 0) ≠ Except.error InterpreterErr.RomTooLarge := by
  have h := C1_amended_rom_boundary (List.replicate 3583 0)
  constructor
  · exact h.2.mpr (by rw [List.length_replicate]; omega)
  · intro hc
    have := h.1.mp hc
    rw [List.length_replicate] at this
    omega

/-! ### C2 — timer decrement accumulation -/

/-- C2, counterexample: at rate 90 (not divisible by 60) the claim predicts
`floor(3·60/90) = 2` decrements across three ticks of a freshly set timer,
i.e. a final value of `10 - 2 = 8`; the code discards the fractional excess
when it decrements (`count_ticks = 0.0`), so only one decrement happens and
the final value is 9. -/
theorem C2_counterexample :
    ((Timer.new.set 10).tickN 90 3).currentVal = 9 ∧ 10 - 3 * 60 / 90 = 8 := by
  constructor <;> rfl

/-- C2, amended: `tick(rate)` resets the accumulated count to zero on every
decrement instead of carrying the excess, so one decrement happens per
`ceil(rate/60) = (rate + 59) / 60` consecutive calls; `n` calls on a freshly
set timer with a large enough value produce `n / ceil(rate/60)` decrements
(this equals `floor(n·60/rate)` exactly when 60 divides `rate`, and is
strictly fewer for other rates). -/
theorem C2_amended_ceil_decrement (rate n v : Nat) (hr : 1 ≤ rate)
    (hv : n / ((rate + 59) / 60) ≤ v) :
    ((Timer.new.set v).tickN rate n).currentVal = v - n / ((rate + 59) / 60)
    ∧ ((Timer.new.set v).tickN rate n).countTicks = n % ((rate + 59) / 60) := by
  set k := (rate + 59) / 60 with hk
  have hk1 : 1 ≤ k := by omega
  revert hv
  induction n with
  | zero =>
    intro _
    constructor
    · simp [Timer.tickN, Timer.set]
    · simp [Timer.tickN, Timer.set, Nat.zero_mod]
  | succ n ih =>
    intro hv
    have hv' : n / k ≤ v :=
      le_trans (Nat.div_le_div_right (Nat.le_succ n)) hv
    obtain ⟨ih1, ih2⟩ := ih hv'
    have hmod := Nat.div_add_mod n k
    have hmlt : n % k < k := Nat.mod_lt n (by omega)
    show (((Timer.new.set v).tickN rate n).tick rate).2.currentVal = _
      ∧ (((Timer.new.set v).tickN rate n).tick rate).2.countTicks = _
    unfold Timer.tick
    rw [ih1, ih2]
    by_cases hc : k ≤ n % k + 1
    · -- the counter reaches the threshold: decrement and reset
      have hm : n % k + 1 = k := by omega
      have hsucc : n + 1 = k * (n / k + 1) := by
        calc n + 1 = k * (n / k) + (n % k + 1) := by omega
        _ = k * (n / k + 1) := by rw [hm]; ring
      have hdiv : (n + 1) / k = n / k + 1 := by
        rw [hsucc, Nat.mul_div_cancel_left _ (show 0 < k by omega)]
      have hmod1 : (n + 1) % k = 0 := by
        rw [hsucc, Nat.mul_mod_right]
      have hcur : 0 < v - n / k := by
        have : n / k + 1 ≤ v := by rw [← hdiv]; exact hv
        omega
      have hcond : rate ≤ (n % k + 1) * 60 := by
        have : k * 60 ≥ rate := by omega
        calc rate ≤ k * 60 := this
        _ = (n % k + 1) * 60 := by rw [hm]
      rw [if_pos ⟨hcur, hcond⟩]
      constructor
      · show v - n / k - 1 = v - (n + 1) / k
        omega
      · show 0 = (n + 1) % k
        omega
    · -- below the threshold: no decrement, counter advances
      have hmlt1 : n % k + 1 < k := by omega
      have hsucc : n + 1 = (n % k + 1) + k * (n / k) := by omega
      have hdiv : (n + 1) / k = n / k := by
        rw [hsucc, Nat.add_mul_div_left _ _ (show 0 < k by omega),
          Nat.div_eq_of_lt hmlt1, Nat.zero_add]
      have hmod1 : (n + 1) % k = n % k + 1 := by
        rw [hsucc, Nat.add_mul_mod_self_left, Nat.mod_eq_of_lt hmlt1]
      have hcond : ¬ (rate ≤ (n % k + 1) * 60) := by
        intro hle
        have : (n % k + 1) ≥ k := by omega
        omega
      rw [if_neg (by
        rintro ⟨_, h2⟩
        exact hcond h2)]
      constructor
      · show v - n / k = v - (n + 1) / k
        omega
      · show n % k + 1 = (n + 1) % k
        omega

/-- C2, witness: rate 90, three calls, start value 10 — `ceil(90/60) = 2`,
so one decrement and a final value of `10 - 3/2 = 9`. -/
theorem C2_witness :
    (1 ≤ 90 ∧ 3 / ((90 + 59) / 60) ≤ 10)
    ∧ ((Timer.new.set 10).tickN 90 3).currentVal = 10 - 3 / ((90 + 59) / 60) := by
  refine ⟨⟨by decide, by decide⟩, ?_⟩
  exact (C2_amended_ceil_decrement 90 3 10 (by decide) (by decide)).1

/-! ### C10 — font address computed with 8-bit arithmetic -/

/-- C10: `FX29` computes the glyph address as `(VX * 5) as u16` with the
multiplication performed in `u8`, so `I = (5·v) mod 256`; `I = 5·v` holds
exactly for `v ≤ 51`, and for larger register values the 8-bit product wraps
and the stored address differs from `5·v`. -/
theorem C10_fx29_u8_multiply (s : Chip8) (vxIdx : Nat) (hvx : vxIdx < 16)
    (hval : s.vRegs vxIdx < 256) :
    (s.execute_fx29 vxIdx).2 = none
    ∧ (s.execute_fx29 vxIdx).1.iReg = s.vRegs vxIdx * 5 % 256
    ∧ ((s.execute_fx29 vxIdx).1.iReg = 5 * s.vRegs vxIdx ↔ s.vRegs vxIdx ≤ 51) := by
  unfold Chip8.execute_fx29 Chip8.read_v_reg
  rw [if_neg (by omega)]
  refine ⟨rfl, rfl, ?_⟩
  show s.vRegs vxIdx * 5 % 256 = 5 * s.vRegs vxIdx ↔ s.vRegs vxIdx ≤ 51
  omega

/-- C10, witness: at register value 0 the stored address is `0 = 5·0`. -/
theorem C10_witness :
    (0 < 16 ∧ baseState.vRegs 0 < 256)
    ∧ ((baseState.execute_fx29 0).1.iReg = 5 * baseState.vRegs 0 ↔ baseState.vRegs 0 ≤ 51) := by
  exact ⟨⟨by decide, by decide⟩, (C10_fx29_u8_multiply baseState 0 (by decide) (by decide)).2.2⟩

/-! ### C4 — skip-family frame effect -/

/-- C4: each of `3XNN`, `4XNN`, `5XY0`, `9XY0` (register operands below 16,
program counter not at the wrap boundary) succeeds, adds exactly 2 to the
program counter when its condition holds, and returns the state otherwise
unchanged — no register, index, memory, display, timer or stack change in
either case. -/
theorem C4_skip_family (s : Chip8) (vxIdx vyIdx val : Nat)
    (hvx : vxIdx < 16) (hvy : vyIdx < 16) (hpc : s.pc + 2 < 65536) :
    (s.execute_3xnn vxIdx val
      = (if s.vRegs vxIdx = val then { s with pc := s.pc + 2 } else s, none))
    ∧ (s.execute_4xnn vxIdx val
      = (if s.vRegs vxIdx ≠ val then { s with pc := s.pc + 2 } else s, none))
    ∧ (s.execute_5xy0 vxIdx vyIdx
      = (if s.vRegs vxIdx = s.vRegs vyIdx then { s with pc := s.pc + 2 } else s, none))
    ∧ (s.execute_9xy0 vxIdx vyIdx
      = (if s.vRegs vxIdx ≠ s.vRegs vyIdx then { s with pc := s.pc + 2 } else s, none)) := by
  have hx : ¬ 16 ≤ vxIdx := by omega
  have hy : ¬ 16 ≤ vyIdx := by omega
  have hmod : (s.pc + 2) % 65536 = s.pc + 2 := Nat.mod_eq_of_lt hpc
  refine ⟨?_, ?_, ?_, ?_⟩ <;>
    simp only [Chip8.execute_3xnn, Chip8.execute_4xnn, Chip8.execute_5xy0,
      Chip8.execute_9xy0, Chip8.read_v_reg, hx, hy, if_false, hmod] <;>
    split <;> simp_all

/-- C4, witness: condition of `3XNN` holds at the base state (`V0 = 0 = NN`),
so the program counter moves from `0x200` to `0x202`. -/
theorem C4_witness :
    (0 < 16 ∧ 1 < 16 ∧ baseState.pc + 2 < 65536)
    ∧ baseState.execute_3xnn 0 0
        = (if baseState.vRegs 0 = 0 then { baseState with pc := baseState.pc + 2 }
           else baseState, none) := by
  exact ⟨⟨by decide, by decide, by decide⟩,
    (C4_skip_family baseState 0 1 0 (by decide) (by decide) (by decide)).1⟩

/-! ### C5 — subtract / reverse-subtract flag polarity and write order -/

/-- C5, counterexample: with `X = 0xF`, `VF = 5`, `V1 = 3`, the claim says
`8XY5` stores the wrapped difference `(5 - 3) mod 256 = 2` into `VX = VF`;
the code writes the difference first and then overwrites `VF` with the
borrow flag, leaving `VF = 1`. -/
theorem C5_counterexample :
    (c5State.execute_8xy5 15 1).1.vRegs 15 = 1
    ∧ (c5State.vRegs 15 + 256 - c5State.vRegs 1) % 256 = 2 := by
  constructor <;> rfl

/-- C5, amended: for `X ≠ 0xF` both instructions behave as claimed — `8XY5`
stores `(VX - VY) mod 256` into `VX` with `VF = 0` on underflow and `1`
otherwise, `8XY7` stores `(VY - VX) mod 256` into `VX` with the same
polarity, and no other register or the program counter changes.  When
`X = 0xF` the later of the two writes wins: `8XY5` leaves `VF` holding the
flag (the difference is overwritten) and `8XY7` leaves `VF` holding the
difference (the flag is overwritten). -/
theorem C5_amended_sub_flag_order (s : Chip8) (vxIdx vyIdx : Nat)
    (hvx : vxIdx < 16) (hvy : vyIdx < 16) :
    (vxIdx ≠ 15 →
      ((s.execute_8xy5 vxIdx vyIdx).2 = none
       ∧ (s.execute_8xy5 vxIdx vyIdx).1.vRegs vxIdx
           = (s.vRegs vxIdx + 256 - s.vRegs vyIdx) % 256
       ∧ (s.execute_8xy5 vxIdx vyIdx).1.vRegs 15
           = (if s.vRegs vxIdx < s.vRegs vyIdx then 0 else 1)
       ∧ (∀ j, j ≠ vxIdx → j ≠ 15 → (s.execute_8xy5 vxIdx vyIdx).1.vRegs j = s.vRegs j)
       ∧ (s.execute_8xy5 vxIdx vyIdx).1.pc = s.pc)
      ∧ ((s.execute_8xy7 vxIdx vyIdx).2 = none
       ∧ (s.execute_8xy7 vxIdx vyIdx).1.vRegs vxIdx
           = (s.vRegs vyIdx + 256 - s.vRegs vxIdx) % 256
       ∧ (s.execute_8xy7 vxIdx vyIdx).1.vRegs 15
           = (if s.vRegs vyIdx < s.vRegs vxIdx then 0 else 1)
       ∧ (∀ j, j ≠ vxIdx → j ≠ 15 → (s.execute_8xy7 vxIdx vyIdx).1.vRegs j = s.vRegs j)
       ∧ (s.execute_8xy7 vxIdx vyIdx).1.pc = s.pc))
    ∧ (vxIdx = 15 →
        (s.execute_8xy5 vxIdx vyIdx).1.vRegs 15
          = (if s.vRegs vxIdx < s.vRegs vyIdx then 0 else 1)
        ∧ (s.execute_8xy7 vxIdx vyIdx).1.vRegs 15
          = (s.vRegs vyIdx + 256 - s.vRegs vxIdx) % 256) := by
  have hx : ¬ 16 ≤ vxIdx := by omega
  have hy : ¬ 16 ≤ vyIdx := by omega
  have hf : ¬ (16 : Nat) ≤ 15 := by omega
  constructor
  · intro hne
    constructor
    · simp only [Chip8.execute_8xy5, Chip8.read_v_reg, Chip8.write_v_reg, hx, hy, hf,
        if_false]
      by_cases hab : s.vRegs vxIdx < s.vRegs vyIdx <;>
        simp [hab, Function.update_apply, hne] <;>
        intro j hj1 hj2 <;> simp [hj1, hj2]
    · simp only [Chip8.execute_8xy7, Chip8.read_v_reg, Chip8.write_v_reg, hx, hy, hf,
        if_false]
      by_cases hab : s.vRegs vyIdx < s.vRegs vxIdx <;>
        simp [hab, Function.update_apply, hne, Ne.symm hne] <;>
        intro j hj1 hj2 <;> simp [hj1, hj2]
  · intro heq
    subst heq
    constructor
    · simp only [Chip8.execute_8xy5, Chip8.read_v_reg, Chip8.write_v_reg, hx, hy, hf,
        if_false]
      by_cases hab : s.vRegs 15 < s.vRegs vyIdx <;> simp [hab]
    · simp only [Chip8.execute_8xy7, Chip8.read_v_reg, Chip8.write_v_reg, hx, hy, hf,
        if_false]
      by_cases hab : s.vRegs vyIdx < s.vRegs 15 <;> simp [hab]

/-- C5, witness: `8XY5` on `V0 = 0`, `V1 = 0` with `X = 0 ≠ 0xF` — no
underflow, so `V0 = 0` and `VF = 1`. -/
theorem C5_witness :
    (0 < 16 ∧ 1 < 16)
    ∧ (baseState.execute_8xy5 0 1).1.vRegs 0
        = (baseState.vRegs 0 + 256 - baseState.vRegs 1) % 256 := by
  exact ⟨⟨by decide, by decide⟩,
    (((C5_amended_sub_flag_order baseState 0 1 (by decide) (by decide)).1
      (by decide)).1).2.1⟩

/-! ### C8 — FX07 ticks the delay timer at a hard-coded rate -/

/-- C8: `FX07` is not side-effect-free — it first advances the delay timer by
one `tick` at the hard-coded internal rate 100 (regardless of the tick rate
the driver passes to `step`) and stores the resulting, possibly decremented,
current value into `VX`; in particular when the internal counter is about to
reach the 100 Hz threshold and the value is positive, reading the delay timer
decrements it. -/
theorem C8_fx07_ticks_delay_timer (s : Chip8) (vxIdx rate1 rate2 : Nat)
    (hvx : vxIdx < 16) :
    ((s.execute_fx07 vxIdx).2 = none
     ∧ (s.execute_fx07 vxIdx).1.delayTimer = (s.delayTimer.tick 100).2
     ∧ (s.execute_fx07 vxIdx).1.vRegs vxIdx = (s.delayTimer.tick 100).1)
    ∧ (s.delayTimer.countTicks = 1 → 0 < s.delayTimer.currentVal →
       (s.execute_fx07 vxIdx).1.vRegs vxIdx = s.delayTimer.currentVal - 1
       ∧ (s.execute_fx07 vxIdx).1.delayTimer.currentVal = s.delayTimer.currentVal - 1)
    ∧ (s.keyAwaitDestReg = none → s.pc + 1 < 4096 →
       s.memory s.pc = 0xF1 → s.memory (s.pc + 1) = 0x07 →
       (s.step rate1).1.delayTimer = (s.delayTimer.tick 100).2
       ∧ (s.step rate1).1.delayTimer = (s.step rate2).1.delayTimer) := by
  have hx : ¬ 16 ≤ vxIdx := by omega
  have hbase : (s.execute_fx07 vxIdx).2 = none
      ∧ (s.execute_fx07 vxIdx).1.delayTimer = (s.delayTimer.tick 100).2
      ∧ (s.execute_fx07 vxIdx).1.vRegs vxIdx = (s.delayTimer.tick 100).1 := by
    simp [Chip8.execute_fx07, Chip8.write_v_reg, hx]
  refine ⟨hbase, ?_, ?_⟩
  · intro hcount hpos
    have htick : s.delayTimer.tick 100 =
        (s.delayTimer.currentVal - 1,
         { s.delayTimer with currentVal := s.delayTimer.currentVal - 1, countTicks := 0 }) := by
      unfold Timer.tick
      rw [hcount, if_pos ⟨hpos, by omega⟩]
    exact ⟨by rw [hbase.2.2, htick], by rw [hbase.2.1, htick]⟩
  · intro hA hpc hm1 hm2
    have hstep : ∀ rate : Nat, (s.step rate).1.delayTimer = (s.delayTimer.tick 100).2 := by
      intro rate
      have hnle : ¬ 4096 ≤ s.pc := by omega
      have hnle1 : ¬ 4096 ≤ s.pc + 1 := by omega
      have hmod : (s.pc + 1) % 65536 = s.pc + 1 := by omega
      have hdec : ∀ q, decode 61703 q
          = { instr := 61703, opcode := .OpCodeFx07 1, mnemonic := "LD V1, DT" } :=
        fun _ => rfl
      have hn : (241 <<< 8 ||| 7 : Nat) = 61703 := rfl
      simp only [Chip8.step, Chip8.is_awaiting_key_press, cst_keyAwait, hA,
        Chip8.fetch_next_instruction, Chip8.readMem, cst_pc, cst_memory, hmod,
        hm1, hm2, hnle, hnle1, if_false, hn, hdec]
      simp only [Chip8.execute_instruction]
      simp [Chip8.execute_fx07, Chip8.write_v_reg, cst_delayTimer]
    exact ⟨hstep rate1, by rw [hstep rate1, hstep rate2]⟩

/-- C8, witness: at the base state, `FX07` succeeds and writes the ticked
delay-timer value into `V0`. -/
theorem C8_witness :
    (0 < 16)
    ∧ (baseState.execute_fx07 0).2 = none
    ∧ (baseState.execute_fx07 0).1.delayTimer = (baseState.delayTimer.tick 100).2 := by
  have h := C8_fx07_ticks_delay_timer baseState 0 60 120 (by decide)
  exact ⟨by decide, h.1.1, h.1.2.1⟩

/-! ### C9 — the key-wait sentinel result -/

/-- C9: while blocked on a key wait with no key present, `step` returns
`Ok` carrying the sentinel `DecodedInstruction::new()` — instruction word 0,
the invalid opcode variant, empty mnemonic — whereas a genuinely fetched
instruction word that decodes to the invalid variant is reported as
`Err(InvalidOpcode(word))`. -/
theorem C9_sentinel_vs_invalid (s : Chip8) (rate : Nat) (op : KeyAwaitOp) :
    (s.keyAwaitDestReg = some op → s.keyPress = none →
      (s.step rate).2
        = Except.ok { instr := 0, opcode := .OpCodeInvalid, mnemonic := "" }
      ∧ DecodedInstruction.new
        = ({ instr := 0, opcode := .OpCodeInvalid, mnemonic := "" } : DecodedInstruction))
    ∧ (s.keyAwaitDestReg = none → s.pc + 1 < 4096 →
      (decode ((s.memory s.pc <<< 8) ||| s.memory (s.pc + 1)) s.quirks).opcode
        = .OpCodeInvalid →
      (s.step rate).2
        = Except.error
            (.InvalidOpcode ((s.memory s.pc <<< 8) ||| s.memory (s.pc + 1)))) := by
  constructor
  · intro hA hk
    refine ⟨?_, rfl⟩
    simp only [Chip8.step, Chip8.is_awaiting_key_press, cst_keyAwait, cst_keyPress,
      hA, hk]
    rfl
  · intro hA hpc hinv
    have hnle : ¬ 4096 ≤ s.pc := by omega
    have hnle1 : ¬ 4096 ≤ s.pc + 1 := by omega
    have hmod : (s.pc + 1) % 65536 = s.pc + 1 := by omega
    have hinstr := decode_instr_eq ((s.memory s.pc <<< 8) ||| s.memory (s.pc + 1)) s.quirks
    simp only [Chip8.step, Chip8.is_awaiting_key_press, cst_keyAwait, hA,
      Chip8.fetch_next_instruction, Chip8.readMem, cst_pc, cst_memory, hmod,
      hnle, hnle1, if_false, Chip8.execute_instruction, cst_quirks]
    rw [hinv]
    simp [hinstr]

/-- C9, witness: the blocked state yields the `Ok` sentinel, and the base
state (whose memory fetches the word 0, which decodes to the invalid
variant) yields `Err(InvalidOpcode 0)`. -/
theorem C9_witness :
    (c9State.step 60).2
      = Except.ok { instr := 0, opcode := .OpCodeInvalid, mnemonic := "" }
    ∧ (baseState.step 60).2 = Except.error (.InvalidOpcode 0) := by
  constructor
  · exact ((C9_sentinel_vs_invalid c9State 60 { destVReg := 1 }).1 rfl rfl).1
  · have h := (C9_sentinel_vs_invalid baseState 60 { destVReg := 0 }).2 rfl
      (by decide) (by rfl)
    simpa using h

/-! ### C3 — key-wait resumption -/

/-- `check_sound_timer` in closed form: only the sound timer and the playback
flag change. -/
theorem cst_eq (s : Chip8) (r : Nat) :
    s.check_sound_timer r
      = { s with soundTimer := (s.soundTimer.tick r).2,
                 isSoundPlaying :=
                   if (s.soundTimer.tick r).1 = 0 then false else s.isSoundPlaying } := by
  unfold Chip8.check_sound_timer
  dsimp only
  split
  · rename_i h
    simp [h.1]
  · rename_i h
    by_cases h0 : (s.soundTimer.tick r).1 = 0
    · have hsp : s.isSoundPlaying = false := by
        cases hh : s.isSoundPlaying
        · rfl
        · exact absurd ⟨h0, hh⟩ h
      simp [h0, hsp]
    · simp [h0]

/-- C3, counterexample: with the key wait latched on destination register 1,
key 5 pressed, and `LD V2, 0x33` at `pc = 0x202`, the claim says the step
call that observes the key does not itself fetch and execute a further
instruction; the code resolves the latch (`V1 = 5`) and then fetches and
executes `0x6233` in the same call, leaving `V2 = 0x33` and `pc = 0x204`. -/
theorem C3_counterexample :
    c3State.pc = 0x202 ∧ c3State.vRegs 2 = 0
    ∧ (c3State.step 60).1.pc = 0x204
    ∧ (c3State.step 60).1.vRegs 2 = 0x33
    ∧ (c3State.step 60).1.vRegs 1 = 5 := by
  refine ⟨rfl, rfl, ?_, ?_, ?_⟩ <;> rfl

/-- C3, amended: while the key wait is latched and no key value is present,
`step` performs only the sound-timer tick — the program counter, registers,
memory, display, index register, stack, delay timer and latch are unchanged
and the sentinel instruction is returned.  At the first step call where a
key value is present, the key's numeric value is written into the recorded
destination register and the latch is cleared, and the interpreter resumes
normal stepping *within that same call* (the call behaves exactly like a
normal step on the key-resolved state, fetching and executing the next
instruction), rather than on the following call. -/
theorem C3_amended_key_resume_same_call (s : Chip8) (rate d : Nat) (k : KeyCodes)
    (hd : d < 16) :
    (s.keyAwaitDestReg = some { destVReg := d } → s.keyPress = none →
      s.step rate = (s.check_sound_timer rate, Except.ok DecodedInstruction.new)
      ∧ (s.check_sound_timer rate).pc = s.pc
      ∧ (s.check_sound_timer rate).vRegs = s.vRegs
      ∧ (s.check_sound_timer rate).memory = s.memory
      ∧ (s.check_sound_timer rate).displayBuffer = s.displayBuffer
      ∧ (s.check_sound_timer rate).iReg = s.iReg
      ∧ (s.check_sound_timer rate).stack = s.stack
      ∧ (s.check_sound_timer rate).delayTimer = s.delayTimer
      ∧ (s.check_sound_timer rate).keyAwaitDestReg = s.keyAwaitDestReg)
    ∧ (s.keyAwaitDestReg = some { destVReg := d } → s.keyPress = some k →
      s.step rate
        = Chip8.step { s with vRegs := Function.update s.vRegs d k.val,
                              keyAwaitDestReg := none } rate) := by
  constructor
  · intro hA hk
    refine ⟨?_, cst_pc s rate, cst_vRegs s rate, cst_memory s rate, cst_display s rate,
      cst_iReg s rate, cst_stack s rate, cst_delayTimer s rate, cst_keyAwait s rate⟩
    simp only [Chip8.step, Chip8.is_awaiting_key_press, cst_keyAwait, cst_keyPress, hA, hk]
  · intro hA hk
    have hd16 : ¬ 16 ≤ d := by omega
    simp only [Chip8.step, cst_eq, Chip8.is_awaiting_key_press, hA, hk,
      Chip8.write_v_reg, hd16, if_false]

/-- C3, witness: a latched state with no key yields the sentinel-only step;
the latched state with key 5 pressed steps exactly like the key-resolved
state. -/
theorem C3_witness :
    (1 < 16)
    ∧ c9State.step 60 = (c9State.check_sound_timer 60, Except.ok DecodedInstruction.new)
    ∧ c3State.step 60
        = Chip8.step { c3State with
            vRegs := Function.update c3State.vRegs 1 (5 : Fin 16).val,
            keyAwaitDestReg := none } 60 := by
  refine ⟨by decide, ?_, ?_⟩
  · exact ((C3_amended_key_resume_same_call c9State 60 1 (5 : Fin 16) (by decide)).1
      rfl rfl).1
  · exact (C3_amended_key_resume_same_call c3State 60 1 (5 : Fin 16) (by decide)).2
      rfl rfl

theorem fx55Loop_fault (vx k : Nat) (hvx : vx < 16) (hk : k ≤ vx) :
    ∀ (n x : Nat) (s : Chip8), k - x = n → x ≤ k →
      (∀ j, x ≤ j → j < k → s.iReg + j < 4096) →
      4096 ≤ s.iReg + k → s.iReg + k < 65536 →
      (s.fx55Loop x vx).2 = some InterpreterErr.MemFault
      ∧ (∀ j, x ≤ j → j < k → (s.fx55Loop x vx).1.memory (s.iReg + j) = s.vRegs j)
      ∧ (∀ a, (∀ j, x ≤ j → j < k → a ≠ s.iReg + j) →
          (s.fx55Loop x vx).1.memory a = s.memory a)
      ∧ (s.fx55Loop x vx).1.vRegs = s.vRegs
      ∧ (s.fx55Loop x vx).1.iReg = s.iReg
      ∧ (s.fx55Loop x vx).1.pc = s.pc := by
  intro n
  induction n with
  | zero =>
    intro x s hn hx hok hbad hnw
    have hxk : x = k := by omega
    subst hxk
    have h1 : (s.fx55Loop x vx)
        = (s, some InterpreterErr.MemFault) := by
      rw [Chip8.fx55Loop]
      rw [if_pos (show x ≤ vx by omega)]
      simp only [Chip8.read_v_reg, Chip8.writeMem, Nat.mod_eq_of_lt hnw]
      simp [show ¬ (16 ≤ x) by omega, hbad]
    rw [h1]
    refine ⟨rfl, ?_, ?_, rfl, rfl, rfl⟩
    · intro j hj1 hj2; omega
    · intro a _; rfl
  | succ n ih =>
    intro x s hn hx hok hbad hnw
    have hxk : x < k := by omega
    have haddr : (s.iReg + x) % 65536 = s.iReg + x := Nat.mod_eq_of_lt (by omega)
    have hlt : ¬ 4096 ≤ s.iReg + x := by
      have := hok x (le_refl x) hxk
      omega
    have h1 : s.fx55Loop x vx
        = Chip8.fx55Loop
            { s with memory := Function.update s.memory (s.iReg + x) (s.vRegs x) }
            (x + 1) vx := by
      rw [Chip8.fx55Loop]
      rw [if_pos (show x ≤ vx by omega)]
      simp only [Chip8.read_v_reg, Chip8.writeMem, haddr]
      simp [show ¬ (16 ≤ x) by omega, hlt]
    have hIH := ih (x + 1)
        { s with memory := Function.update s.memory (s.iReg + x) (s.vRegs x) }
        (by omega) (by omega) (fun j hj1 hj2 => hok j (by omega) hj2) hbad hnw
    dsimp only at hIH
    obtain ⟨ih1, ih2, ih3, ih4, ih5, ih6⟩ := hIH
    rw [h1]
    refine ⟨ih1, ?_, ?_, ih4, ih5, ih6⟩
    · intro j hj1 hj2
      rcases Nat.eq_or_lt_of_le hj1 with hje | hjl
      · have h3 := ih3 (s.iReg + j) (fun j' hj1' hj2' => by omega)
        rw [h3, ← hje]
        simp [Function.update_apply]
      · exact ih2 j (by omega) hj2
    · intro a ha
      have h3 := ih3 a (fun j' hj1' hj2' => ha j' (by omega) hj2')
      rw [h3]
      have hax : a ≠ s.iReg + x := ha x (le_refl x) hxk
      simp [Function.update_apply, hax]

theorem fx65Loop_fault (vx k : Nat) (hvx : vx < 16) (hk : k ≤ vx) :
    ∀ (n x : Nat) (s : Chip8), k - x = n → x ≤ k →
      (∀ j, x ≤ j → j < k → s.iReg + j < 4096) →
      4096 ≤ s.iReg + k → s.iReg + k < 65536 →
      (s.fx65Loop x vx).2 = some InterpreterErr.MemFault
      ∧ (∀ j, x ≤ j → j < k → (s.fx65Loop x vx).1.vRegs j = s.memory (s.iReg + j))
      ∧ (∀ j, (j < x ∨ k ≤ j) → (s.fx65Loop x vx).1.vRegs j = s.vRegs j)
      ∧ (s.fx65Loop x vx).1.memory = s.memory
      ∧ (s.fx65Loop x vx).1.iReg = s.iReg
      ∧ (s.fx65Loop x vx).1.pc = s.pc := by
  intro n
  induction n with
  | zero =>
    intro x s hn hx hok hbad hnw
    have hxk : x = k := by omega
    subst hxk
    have h1 : (s.fx65Loop x vx)
        = (s, some InterpreterErr.MemFault) := by
      rw [Chip8.fx65Loop]
      rw [if_pos (show x ≤ vx by omega)]
      simp only [Chip8.readMem, Nat.mod_eq_of_lt hnw]
      simp [hbad]
    rw [h1]
    refine ⟨rfl, ?_, ?_, rfl, rfl, rfl⟩
    · intro j hj1 hj2; omega
    · intro j _; rfl
  | succ n ih =>
    intro x s hn hx hok hbad hnw
    have hxk : x < k := by omega
    have haddr : (s.iReg + x) % 65536 = s.iReg + x := Nat.mod_eq_of_lt (by omega)
    have hlt : ¬ 4096 ≤ s.iReg + x := by
      have := hok x (le_refl x) hxk
      omega
    have h1 : s.fx65Loop x vx
        = Chip8.fx65Loop
            { s with vRegs := Function.update s.vRegs x (s.memory (s.iReg + x)) }
            (x + 1) vx := by
      rw [Chip8.fx65Loop]
      rw [if_pos (show x ≤ vx by omega)]
      simp only [Chip8.readMem, Chip8.write_v_reg, haddr]
      simp [show ¬ (16 ≤ x) by omega, hlt]
    have hIH := ih (x + 1)
        { s with vRegs := Function.update s.vRegs x (s.memory (s.iReg + x)) }
        (by omega) (by omega) (fun j hj1 hj2 => hok j (by omega) hj2) hbad hnw
    dsimp only at hIH
    obtain ⟨ih1, ih2, ih3, ih4, ih5, ih6⟩ := hIH
    rw [h1]
    refine ⟨ih1, ?_, ?_, ih4, ih5, ih6⟩
    · intro j hj1 hj2
      rcases Nat.eq_or_lt_of_le hj1 with hje | hjl
      · have h3 := ih3 j (Or.inl (by omega))
        rw [h3, ← hje]
        simp [Function.update_apply]
      · exact ih2 j (by omega) hj2
    · intro j hj
      have h3 := ih3 j (by omega)
      rw [h3]
      have hjx : j ≠ x := by omega
      simp [Function.update_apply, hjx]

/-! ### C7 — bulk dump/load abort with prior writes committed -/

/-- C7: if element `k` (with `0 ≤ k ≤ X`) is the first whose address
`I + k` is out of range (`≥ 4096`, all earlier addresses in range, no `u16`
wrap), then `FX55` aborts with `MemFault` having committed the memory writes
for elements `0..k-1` and leaving the registers, index and program counter
untouched, and `FX65` aborts with `MemFault` having committed the register
writes for elements `0..k-1` and leaving memory, registers `≥ k`, index and
program counter untouched — the bulk operations are not atomic on failure. -/
theorem C7_bulk_ops_nonatomic (s : Chip8) (vxIdx k : Nat)
    (hvx : vxIdx < 16) (hk : k ≤ vxIdx)
    (hbad : 4096 ≤ s.iReg + k)
    (hok : ∀ j, j < k → s.iReg + j < 4096)
    (hnw : s.iReg + k < 65536) :
    ((s.execute_fx55 vxIdx).2 = some InterpreterErr.MemFault
     ∧ (∀ j, j < k → (s.execute_fx55 vxIdx).1.memory (s.iReg + j) = s.vRegs j)
     ∧ (∀ a, (∀ j, j < k → a ≠ s.iReg + j) →
         (s.execute_fx55 vxIdx).1.memory a = s.memory a)
     ∧ (s.execute_fx55 vxIdx).1.vRegs = s.vRegs
     ∧ (s.execute_fx55 vxIdx).1.iReg = s.iReg
     ∧ (s.execute_fx55 vxIdx).1.pc = s.pc)
    ∧ ((s.execute_fx65 vxIdx).2 = some InterpreterErr.MemFault
     ∧ (∀ j, j < k → (s.execute_fx65 vxIdx).1.vRegs j = s.memory (s.iReg + j))
     ∧ (∀ j, k ≤ j → (s.execute_fx65 vxIdx).1.vRegs j = s.vRegs j)
     ∧ (s.execute_fx65 vxIdx).1.memory = s.memory
     ∧ (s.execute_fx65 vxIdx).1.iReg = s.iReg
     ∧ (s.execute_fx65 vxIdx).1.pc = s.pc) := by
  obtain ⟨h1, h2, h3, h4, h5, h6⟩ :=
    fx55Loop_fault vxIdx k hvx hk k 0 s (by omega) (by omega)
      (fun j _ hj2 => hok j hj2) hbad hnw
  obtain ⟨g1, g2, g3, g4, g5, g6⟩ :=
    fx65Loop_fault vxIdx k hvx hk k 0 s (by omega) (by omega)
      (fun j _ hj2 => hok j hj2) hbad hnw
  unfold Chip8.execute_fx55 Chip8.execute_fx65
  exact ⟨⟨h1, fun j hj => h2 j (by omega) hj,
          fun a ha => h3 a (fun j _ hj2 => ha j hj2), h4, h5, h6⟩,
         ⟨g1, fun j hj => g2 j (by omega) hj,
          fun j hj => g3 j (Or.inr hj), g4, g5, g6⟩⟩

/-- C7, witness: with `I = 4095` and `X = 1`, element 1 is the first out of
range; `FX55` faults having written `V0 = 0xAB` to address 4095, and `FX65`
faults having loaded `V0` from address 4095 (value `0x77`). -/
theorem C7_witness :
    (1 < 16 ∧ 1 ≤ 1 ∧ 4096 ≤ c7State.iReg + 1 ∧ c7State.iReg + 1 < 65536)
    ∧ (c7State.execute_fx55 1).2 = some InterpreterErr.MemFault
    ∧ (c7State.execute_fx55 1).1.memory 4095 = 0xAB
    ∧ (c7State.execute_fx65 1).2 = some InterpreterErr.MemFault
    ∧ (c7State.execute_fx65 1).1.vRegs 0 = 0x77 := by
  obtain ⟨⟨h1, h2, h3, h4, h5, h6⟩, ⟨g1, g2, g3, g4, g5, g6⟩⟩ :=
    C7_bulk_ops_nonatomic c7State 1 1 (by decide) (by decide) (by decide)
      (fun j hj => by interval_cases j; decide) (by decide)
  refine ⟨⟨by decide, by decide, by decide, by decide⟩, h1, ?_, g1, ?_⟩
  · have := h2 0 (by decide)
    simpa using this
  · have := g2 0 (by decide)
    simpa using this

/-! ### C6 - sprite draw: XOR involution and collision flag -/

theorem dGet_updCell (d : Display) (c1 c : Cell) (v : Nat) :
    dGet (updCell d c1 v) c = if c1 = c then v else dGet d c := by
  rcases c with ⟨cy, cx⟩
  rcases c1 with ⟨c1y, c1x⟩
  show Function.update d c1y (Function.update (d c1y) c1x v) cy cx
      = if (⟨c1y, c1x⟩ : Cell) = ⟨cy, cx⟩ then v else d cy cx
  rw [Function.update_apply]
  by_cases hy : cy = c1y
  · subst hy
    rw [if_pos rfl, Function.update_apply]
    by_cases hx : cx = c1x
    · subst hx
      rw [if_pos rfl, if_pos rfl]
    · rw [if_neg hx, if_neg (by
        simp only [Prod.mk.injEq, true_and]
        exact fun h => hx h.symm)]
  · rw [if_neg hy, if_neg (by
      simp only [Prod.mk.injEq]
      exact fun h => hy h.1.symm)]

theorem runWrites_fst_apply (ws : List (Cell × Nat)) :
    ∀ d : Display, ∀ c : Cell, dGet (runWrites d ws).1 c = dGet d c ^^^ accBits ws c := by
  induction ws with
  | nil => intro d c; simp [runWrites, accBits]
  | cons w ws ih =>
    intro d c
    rcases w with ⟨c1, b⟩
    show dGet (runWrites (updCell d c1 (dGet d c1 ^^^ b)) ws).1 c = _
    rw [ih, dGet_updCell, accBits]
    by_cases h : c1 = c
    · simp [h, Nat.xor_assoc]
    · simp [h]

theorem runWrites_restore (ws : List (Cell × Nat)) (d : Display) :
    (runWrites (runWrites d ws).1 ws).1 = d := by
  funext y x
  have h := runWrites_fst_apply ws (runWrites d ws).1 (y, x)
  have h2 := runWrites_fst_apply ws d (y, x)
  show dGet (runWrites (runWrites d ws).1 ws).1 (y, x) = dGet d (y, x)
  rw [h, h2, Nat.xor_assoc, Nat.xor_self, Nat.xor_zero]

theorem runWrites_snd_agree (ws : List (Cell × Nat)) :
    ∀ d1 d2 : Display, (∀ p ∈ ws, dGet d1 p.1 = dGet d2 p.1) →
      (runWrites d1 ws).2 = (runWrites d2 ws).2 := by
  induction ws with
  | nil => intro d1 d2 _; rfl
  | cons w ws ih =>
    intro d1 d2 hag
    rcases w with ⟨c, b⟩
    have hc : dGet d1 c = dGet d2 c := hag (c, b) (List.mem_cons_self _ _)
    show ((b == dGet d1 c && b == 1)
        || (runWrites (updCell d1 c (dGet d1 c ^^^ b)) ws).2)
      = ((b == dGet d2 c && b == 1)
        || (runWrites (updCell d2 c (dGet d2 c ^^^ b)) ws).2)
    rw [hc]
    have htail : (runWrites (updCell d1 c (dGet d2 c ^^^ b)) ws).2
        = (runWrites (updCell d2 c (dGet d2 c ^^^ b)) ws).2 := by
      apply ih
      intro p hp
      rw [dGet_updCell, dGet_updCell]
      by_cases h : c = p.1
      · simp [h]
      · simp [h]
        exact hag p (List.mem_cons_of_mem _ hp)
    rw [htail]

theorem accBits_of_not_mem (ws : List (Cell × Nat)) (c : Cell)
    (h : c ∉ ws.map Prod.fst) : accBits ws c = 0 := by
  induction ws with
  | nil => rfl
  | cons w ws ih =>
    rcases w with ⟨c1, b⟩
    have h1 : c1 ≠ c := by
      intro he
      exact h (by simp [he])
    have h2 : c ∉ ws.map Prod.fst := by
      intro hm
      exact h (by simp [hm])
    simp [accBits, h1, ih h2]

theorem accBits_of_nodup_mem (ws : List (Cell × Nat)) (c : Cell) (b : Nat) :
    (ws.map Prod.fst).Nodup → (c, b) ∈ ws → accBits ws c = b := by
  induction ws with
  | nil => intro _ h; exact absurd h (List.not_mem_nil _)
  | cons w ws ih =>
    intro hnd hmem
    rcases w with ⟨c1, b1⟩
    simp only [List.map_cons, List.nodup_cons] at hnd
    rcases List.mem_cons.mp hmem with he | ht
    · injection he with h1 h2
      subst h1
      subst h2
      simp [accBits, accBits_of_not_mem ws c hnd.1]
    · have hc1 : c1 ≠ c := by
        intro he
        subst he
        exact hnd.1 (List.mem_map_of_mem Prod.fst ht)
      simp [accBits, hc1, ih hnd.2 ht]

theorem runWrites_snd_nodup (ws : List (Cell × Nat)) :
    ∀ d : Display, (ws.map Prod.fst).Nodup →
      ((runWrites d ws).2 = true ↔ ∃ p ∈ ws, p.2 = 1 ∧ dGet d p.1 = 1) := by
  induction ws with
  | nil => intro d _; simp [runWrites]
  | cons w ws ih =>
    intro d hnd
    rcases w with ⟨c, b⟩
    simp only [List.map_cons, List.nodup_cons] at hnd
    have htail : (runWrites (updCell d c (dGet d c ^^^ b)) ws).2 = (runWrites d ws).2 := by
      apply runWrites_snd_agree
      intro p hp
      rw [dGet_updCell]
      have : c ≠ p.1 := by
        intro he
        exact hnd.1 (he ▸ List.mem_map_of_mem Prod.fst hp)
      simp [this]
    show ((b == dGet d c && b == 1) || (runWrites (updCell d c (dGet d c ^^^ b)) ws).2) = true
        ↔ _
    rw [htail]
    simp only [Bool.or_eq_true, Bool.and_eq_true, beq_iff_eq]
    rw [ih d hnd.2]
    constructor
    · rintro (⟨h1, h2⟩ | ⟨p, hp, hb, hd⟩)
      · exact ⟨(c, b), List.mem_cons_self _ _, by simp [h2, ← h1]⟩
      · exact ⟨p, List.mem_cons_of_mem _ hp, hb, hd⟩
    · rintro ⟨p, hp, hb, hd⟩
      rcases List.mem_cons.mp hp with he | ht
      · subst he
        dsimp only at hb hd
        exact Or.inl ⟨by rw [hb, hd], hb⟩
      · exact Or.inr ⟨p, ht, hb, hd⟩

theorem runWrites_append (ws1 ws2 : List (Cell × Nat)) :
    ∀ d : Display, runWrites d (ws1 ++ ws2)
      = ((runWrites (runWrites d ws1).1 ws2).1,
         (runWrites d ws1).2 || (runWrites (runWrites d ws1).1 ws2).2) := by
  induction ws1 with
  | nil => intro d; simp [runWrites]
  | cons w ws1 ih =>
    intro d
    rcases w with ⟨c, b⟩
    simp only [List.cons_append, runWrites, List.append_eq, ih, Bool.or_assoc]

theorem drawRow_eq (s : Chip8) (did : Bool) (x0 y b : Nat) :
    s.drawRow did x0 y b
      = ({ s with displayBuffer := (runWrites s.displayBuffer (rowWrites x0 y b)).1 },
         did || (runWrites s.displayBuffer (rowWrites x0 y b)).2) := by
  simp [Chip8.drawRow, Chip8.draw, runWrites, rowWrites, updCell, dGet, cellOf,
    Bool.or_assoc, Bool.or_false]

theorem dxynLines_eq (addr x0 y0 count : Nat) :
    ∀ (n l : Nat) (s : Chip8) (did : Bool), count - l = n →
      (∀ j, l ≤ j → j < count → addr + j < 4096) →
      s.dxynLines did addr x0 y0 l count
        = (({ s with displayBuffer :=
                (runWrites s.displayBuffer
                  (spriteWritesFrom s.memory addr x0 y0 l count)).1 },
            did || (runWrites s.displayBuffer
                  (spriteWritesFrom s.memory addr x0 y0 l count)).2),
           none) := by
  intro n
  induction n with
  | zero =>
    intro l s did hn hok
    have hl : ¬ l < count := by omega
    rw [Chip8.dxynLines, if_neg hl, spriteWritesFrom, if_neg hl]
    simp [runWrites]
  | succ n ih =>
    intro l s did hn hok
    have hl : l < count := by omega
    have haddr : (addr + l) % 65536 = addr + l :=
      Nat.mod_eq_of_lt (by have := hok l (le_refl l) hl; omega)
    have hlt : ¬ 4096 ≤ addr + l := by have := hok l (le_refl l) hl; omega
    rw [Chip8.dxynLines, if_pos hl]
    simp only [Chip8.readMem, haddr]
    rw [if_neg hlt]
    simp only [drawRow_eq]
    have hIH := ih (l + 1)
        { s with displayBuffer :=
            (runWrites s.displayBuffer
              (rowWrites x0 ((y0 + l) % 256) (s.memory (addr + l)))).1 }
        (did || (runWrites s.displayBuffer
              (rowWrites x0 ((y0 + l) % 256) (s.memory (addr + l)))).2)
        (by omega) (fun j hj1 hj2 => hok j (by omega) hj2)
    dsimp only at hIH
    rw [hIH]
    conv_rhs => rw [spriteWritesFrom]
    rw [if_pos hl, runWrites_append]
    simp [Bool.or_assoc, haddr]

theorem execute_dxyn_eq (s : Chip8) (vxIdx vyIdx count : Nat)
    (hvx : vxIdx < 16) (hvy : vyIdx < 16)
    (haddr : s.iReg + count ≤ 4096) :
    s.execute_dxyn vxIdx vyIdx count
      = ({ s with
            displayBuffer :=
              (runWrites s.displayBuffer
                (spriteWrites s.memory s.iReg (s.vRegs vxIdx) (s.vRegs vyIdx) count)).1,
            vRegs := Function.update s.vRegs 15
              (if (runWrites s.displayBuffer
                    (spriteWrites s.memory s.iReg (s.vRegs vxIdx) (s.vRegs vyIdx) count)).2
               then 1 else 0) }, none) := by
  have hx : ¬ 16 ≤ vxIdx := by omega
  have hy : ¬ 16 ≤ vyIdx := by omega
  have hlines := dxynLines_eq s.iReg (s.vRegs vxIdx) (s.vRegs vyIdx) count count 0 s false
    (by omega) (fun j hj1 hj2 => by omega)
  unfold Chip8.execute_dxyn
  simp only [Chip8.read_v_reg, hx, hy, if_false, hlines, Bool.false_or, spriteWrites]
  split
  · simp only [Chip8.write_v_reg]
    rw [if_neg (by omega : ¬ (16:Nat) ≤ 15)]
  · simp only [Chip8.write_v_reg]
    rw [if_neg (by omega : ¬ (16:Nat) ≤ 15)]

theorem mem_rowWrites_cells (x0 y b : Nat) (c : Cell)
    (hc : c ∈ (rowWrites x0 y b).map Prod.fst) : c.1.val = y % 32 := by
  simp only [rowWrites, List.map_cons, List.map_nil, List.mem_cons,
    List.not_mem_nil, or_false] at hc
  rcases hc with h | h | h | h | h | h | h | h <;> (subst h; rfl)

theorem rowWrites_cells_nodup (x0 y b : Nat) :
    ((rowWrites x0 y b).map Prod.fst).Nodup := by
  have e : ∀ a : Nat, a % 256 % 64 = a % 64 :=
    fun a => Nat.mod_mod_of_dvd a (by norm_num)
  simp [rowWrites, cellOf, List.nodup_cons, Prod.ext_iff, Fin.ext_iff, e]
  omega

theorem mem_spriteWritesFrom_cells (mem : Nat → Nat) (addr x0 y0 count : Nat) :
    ∀ (n l : Nat), count - l = n → ∀ c : Cell,
      c ∈ (spriteWritesFrom mem addr x0 y0 l count).map Prod.fst →
      ∃ j, l ≤ j ∧ j < count ∧ c.1.val = (y0 + j) % 32 := by
  intro n
  induction n with
  | zero =>
    intro l hn c hc
    by_cases hl : l < count
    · omega
    · rw [spriteWritesFrom, if_neg hl] at hc
      simp at hc
  | succ n ih =>
    intro l hn c hc
    have hl : l < count := by omega
    rw [spriteWritesFrom, if_pos hl, List.map_append, List.mem_append] at hc
    rcases hc with h | h
    · refine ⟨l, le_refl l, hl, ?_⟩
      have := mem_rowWrites_cells x0 ((y0 + l) % 256) (mem ((addr + l) % 65536)) c h
      rw [this, Nat.mod_mod_of_dvd _ (by norm_num : (32:Nat) ∣ 256)]
    · obtain ⟨j, hj1, hj2, hj3⟩ := ih (l + 1) (by omega) c h
      exact ⟨j, by omega, hj2, hj3⟩

theorem spriteWritesFrom_cells_nodup (mem : Nat → Nat) (addr x0 y0 count : Nat)
    (hcount : count ≤ 15) :
    ∀ (n l : Nat), count - l = n →
      ((spriteWritesFrom mem addr x0 y0 l count).map Prod.fst).Nodup := by
  intro n
  induction n with
  | zero =>
    intro l hn
    by_cases hl : l < count
    · omega
    · rw [spriteWritesFrom, if_neg hl]
      simp
  | succ n ih =>
    intro l hn
    have hl : l < count := by omega
    rw [spriteWritesFrom, if_pos hl, List.map_append]
    refine List.Nodup.append (rowWrites_cells_nodup _ _ _) (ih (l + 1) (by omega)) ?_
    intro c hc1 hc2
    have h1 := mem_rowWrites_cells x0 ((y0 + l) % 256) (mem ((addr + l) % 65536)) c hc1
    rw [Nat.mod_mod_of_dvd _ (by norm_num : (32:Nat) ∣ 256)] at h1
    obtain ⟨j, hj1, hj2, hj3⟩ :=
      mem_spriteWritesFrom_cells mem addr x0 y0 count (count - (l + 1)) (l + 1) rfl c hc2
    rw [h1] at hj3
    omega

theorem spriteWrites_cells_nodup (mem : Nat → Nat) (addr x0 y0 count : Nat)
    (hcount : count ≤ 15) :
    ((spriteWrites mem addr x0 y0 count).map Prod.fst).Nodup :=
  spriteWritesFrom_cells_nodup mem addr x0 y0 count hcount count 0 (by omega)

/-- C6: for a sprite of `count ≤ 15` rows read in-bounds at the index
register, with X/Y operand registers below 16 and distinct from `VF`,
drawing the sprite twice in a row at the same location succeeds both times
and restores every display cell to its value before the first draw (XOR is
an involution); each draw sets `VF` to 1 exactly when some drawn 1-bit lands
on a set cell — a pixel transitioning from set to unset — and to 0
otherwise (stated via the draw's write sequence `spriteWrites`); and
whenever the first draw set at least one pixel (a 1-bit landing on a clear
cell), the second draw reports the collision, `VF = 1`. -/
theorem C6_sprite_draw (s : Chip8) (vxIdx vyIdx count : Nat)
    (hvx : vxIdx < 16) (hvy : vyIdx < 16)
    (hvxF : vxIdx ≠ 15) (hvyF : vyIdx ≠ 15)
    (hcount : count ≤ 15)
    (haddr : s.iReg + count ≤ 4096) :
    (s.execute_dxyn vxIdx vyIdx count).2 = none
    ∧ ((s.execute_dxyn vxIdx vyIdx count).1.execute_dxyn vxIdx vyIdx count).2 = none
    ∧ ((s.execute_dxyn vxIdx vyIdx count).1.execute_dxyn vxIdx vyIdx count).1.displayBuffer
        = s.displayBuffer
    ∧ (s.execute_dxyn vxIdx vyIdx count).1.vRegs 15
        = (if ∃ p ∈ spriteWrites s.memory s.iReg (s.vRegs vxIdx) (s.vRegs vyIdx) count,
              p.2 = 1 ∧ dGet s.displayBuffer p.1 = 1
           then 1 else 0)
    ∧ ((∃ p ∈ spriteWrites s.memory s.iReg (s.vRegs vxIdx) (s.vRegs vyIdx) count,
          p.2 = 1 ∧ dGet s.displayBuffer p.1 = 0) →
        ((s.execute_dxyn vxIdx vyIdx count).1.execute_dxyn vxIdx vyIdx count).1.vRegs 15
          = 1) := by
  have hnd := spriteWrites_cells_nodup s.memory s.iReg (s.vRegs vxIdx) (s.vRegs vyIdx)
    count hcount
  have hchar := runWrites_snd_nodup
    (spriteWrites s.memory s.iReg (s.vRegs vxIdx) (s.vRegs vyIdx) count)
    s.displayBuffer hnd
  have h1 := execute_dxyn_eq s vxIdx vyIdx count hvx hvy haddr
  have h2 := execute_dxyn_eq
      { s with
        displayBuffer :=
          (runWrites s.displayBuffer
            (spriteWrites s.memory s.iReg (s.vRegs vxIdx) (s.vRegs vyIdx) count)).1,
        vRegs := Function.update s.vRegs 15
          (if (runWrites s.displayBuffer
                (spriteWrites s.memory s.iReg (s.vRegs vxIdx) (s.vRegs vyIdx) count)).2
           then 1 else 0) }
      vxIdx vyIdx count hvx hvy haddr
  dsimp only at h2
  rw [Function.update_noteq hvxF, Function.update_noteq hvyF] at h2
  refine ⟨by rw [h1], ?_, ?_, ?_, ?_⟩
  · rw [h1]
    dsimp only
    rw [h2]
  · rw [h1]
    dsimp only
    rw [h2]
    dsimp only
    exact runWrites_restore _ s.displayBuffer
  · rw [h1]
    dsimp only
    rw [Function.update_same]
    by_cases hex : ∃ p ∈ spriteWrites s.memory s.iReg (s.vRegs vxIdx) (s.vRegs vyIdx) count,
        p.2 = 1 ∧ dGet s.displayBuffer p.1 = 1
    · rw [if_pos (hchar.mpr hex), if_pos hex]
    · rw [if_neg (fun h => hex (hchar.mp h)), if_neg hex]
  · intro hset
    rw [h1]
    dsimp only
    rw [h2]
    dsimp only
    rw [Function.update_same]
    have hchar2 := runWrites_snd_nodup
      (spriteWrites s.memory s.iReg (s.vRegs vxIdx) (s.vRegs vyIdx) count)
      (runWrites s.displayBuffer
        (spriteWrites s.memory s.iReg (s.vRegs vxIdx) (s.vRegs vyIdx) count)).1 hnd
    obtain ⟨p, hp, hpb, hpd⟩ := hset
    have hmem1 : (p.1, 1) ∈
        spriteWrites s.memory s.iReg (s.vRegs vxIdx) (s.vRegs vyIdx) count := by
      rcases p with ⟨c, b⟩
      dsimp only at hpb
      subst hpb
      exact hp
    have hacc : accBits
        (spriteWrites s.memory s.iReg (s.vRegs vxIdx) (s.vRegs vyIdx) count) p.1 = 1 :=
      accBits_of_nodup_mem _ p.1 1 hnd hmem1
    have hd1 : dGet (runWrites s.displayBuffer
        (spriteWrites s.memory s.iReg (s.vRegs vxIdx) (s.vRegs vyIdx) count)).1 p.1 = 1 := by
      rw [runWrites_fst_apply]
      show dGet s.displayBuffer p.1 ^^^ _ = 1
      rw [hpd, hacc]
      rfl
    have : (runWrites
        (runWrites s.displayBuffer
          (spriteWrites s.memory s.iReg (s.vRegs vxIdx) (s.vRegs vyIdx) count)).1
        (spriteWrites s.memory s.iReg (s.vRegs vxIdx) (s.vRegs vyIdx) count)).2 = true :=
      hchar2.mpr ⟨p, hp, hpb, hd1⟩
    rw [this]
    rfl


/-- C6, witness: a one-row draw of the zero sprite byte at the origin of the
base state draws nothing, collides with nothing, and double-drawing restores
the (all-zero) display. -/
theorem C6_witness :
    (0 < 16 ∧ 1 < 16 ∧ (0 : Nat) ≠ 15 ∧ (1 : Nat) ≠ 15 ∧ (1 : Nat) ≤ 15
      ∧ baseState.iReg + 1 ≤ 4096)
    ∧ (baseState.execute_dxyn 0 1 1).2 = none
    ∧ ((baseState.execute_dxyn 0 1 1).1.execute_dxyn 0 1 1).1.displayBuffer
        = baseState.displayBuffer := by
  obtain ⟨a, b, c, d, e⟩ := C6_sprite_draw baseState 0 1 1 (by decide) (by decide)
    (by decide) (by decide) (by decide) (by decide)
  exact ⟨⟨by decide, by decide, by decide, by decide, by decide, by decide⟩, a, c⟩
